import Mathlib

/-!
# audiobridge: the packet codec, the read path, the latency probe, the playback slot,
the send queue, the connection life cycle, the level meter and the audio engine

A shallow embedding of `src/src/networkmanager.cpp` and `src/src/audiomanager.cpp`.

Conventions of the embedding
* A `QByteArray` is the list of its bytes; `size()` is the length of the list. Qt 5 keeps
  sizes in `int`, so a real array holds fewer than `2^31` bytes; where that matters it is a
  hypothesis of the theorem.
* `int` is 32 bits wide, `qint64` 64 bits wide, both two's complement; a narrowing conversion
  keeps the low bits (`wrapInt32`, `wrapInt64`), an unsigned one reduces modulo `2^32`.
* `createPacket` and `parsePacket` copy the object representation of a `quint32` with
  `append(reinterpret_cast<const char*>(&size), 4)` and `memcpy`; the order of those four bytes
  is the byte order of the host, which is the parameter `ByteOrder` of both functions.
* Signals emitted and bytes written to the socket are appended to the field `log` of the
  manager, in the order in which the code performs them.
* The PortAudio library is a state next to the data members of `AudioManager`; whether one
  of its calls succeeds is an input of the model (`PaOutcome`).
-/

namespace AudioBridge

/-! ## Bytes and machine integers -/

/-- One `char` of a `QByteArray`, as its unsigned value. -/
abbrev Byte := Fin 256

/-- The contents of a `QByteArray`. -/
abbrev QByteArray := List Byte

/-- Byte order of the host's object representation of integers. -/
inductive ByteOrder where
  | little
  | big
  deriving DecidableEq, Repr

/-- Conversion of an integer to `int` (32 bits, two's complement): the low 32 bits. -/
def wrapInt32 (x : Int) : Int := (x + 2147483648) % 4294967296 - 2147483648

/-- Conversion of an integer to `qint64` (64 bits, two's complement): the low 64 bits. -/
def wrapInt64 (x : Int) : Int :=
  (x + 9223372036854775808) % 18446744073709551616 - 9223372036854775808

/-- Conversion of an integer to `quint32` / `uint`: reduction modulo `2^32`. -/
def toUInt32 (x : Int) : Nat := (x % 4294967296).toNat

/-- The byte `n mod 256`. -/
def byteOfNat (n : Nat) : Byte := ⟨n % 256, Nat.mod_lt n (by decide)⟩

/-- The four bytes of the object representation of the `quint32` value `n mod 2^32`,
in memory order, on a host of byte order `o`. -/
def quint32Bytes (o : ByteOrder) (n : Nat) : QByteArray :=
  let le : QByteArray :=
    [byteOfNat n, byteOfNat (n / 256), byteOfNat (n / 65536), byteOfNat (n / 16777216)]
  match o with
  | ByteOrder.little => le
  | ByteOrder.big => le.reverse

/-- The `quint32` whose object representation is the four bytes `b0 b1 b2 b3` (memory order)
on a host of byte order `o`: what `memcpy(&size, p, 4)` leaves in `size`. -/
def quint32OfBytes (o : ByteOrder) (b0 b1 b2 b3 : Byte) : Nat :=
  match o with
  | ByteOrder.little => b0.val + 256 * b1.val + 65536 * b2.val + 16777216 * b3.val
  | ByteOrder.big => b3.val + 256 * b2.val + 65536 * b1.val + 16777216 * b0.val

/-- Qt 5 `QByteArray::mid(int pos, int len)`, after `QContainerImplHelper::mid`: a position
past the end gives the empty array; a negative position is clipped to the start; a length
that, read as `uint`, exceeds what is left after `pos` (so also every negative length) gives
everything from `pos` to the end. -/
def mid (a : QByteArray) (pos len : Int) : QByteArray :=
  let originalLength : Int := a.length
  if pos > originalLength then []
  else if pos < 0 then
    if len < 0 ∨ len + pos ≥ originalLength then a
    else if len + pos ≤ 0 then []
    else a.take (len + pos).toNat
  else
    let len2 : Int :=
      if toUInt32 len > toUInt32 (originalLength - pos) then originalLength - pos else len
    (a.drop pos.toNat).take len2.toNat

/-! ## Packet codec (`networkmanager.cpp`) -/

/-- The constant `PACKET_TYPE_AUDIO`, the character 'A'. -/
def PACKET_TYPE_AUDIO : Byte := 65
/-- The constant `PACKET_TYPE_PING`, the character 'P'. -/
def PACKET_TYPE_PING : Byte := 80
/-- The constant `PACKET_TYPE_PONG`, the character 'O'. -/
def PACKET_TYPE_PONG : Byte := 79

/-- `NetworkManager::createPacket`: the type byte, then the four bytes of
`quint32 size = data.size()` as they lie in memory, then the data. -/
def createPacket (o : ByteOrder) (type : Byte) (data : QByteArray) : QByteArray :=
  let size : Nat := data.length % 4294967296
  [type] ++ quint32Bytes o size ++ data

/-- `NetworkManager::parsePacket`: `none` is the return value `false`; `some (type, data)` is
the return value `true` with the two output parameters. The size test is
`packet.size() < static_cast<int>(5 + size)`, the sum being taken in `quint32`; the payload is
`packet.mid(5, size)`, `size` being converted to `int`. When the second test fails the code
has already stored `packet.at(0)` in `type`; no caller reads it after a `false`. -/
def parsePacket (o : ByteOrder) (packet : QByteArray) : Option (Byte × QByteArray) :=
  match packet with
  | type :: b0 :: b1 :: b2 :: b3 :: _ =>
    let size : Nat := quint32OfBytes o b0 b1 b2 b3
    if (packet.length : Int) < wrapInt32 (((5 + size) % 4294967296 : Nat) : Int) then none
    else some (type, mid packet 5 (wrapInt32 (size : Int)))
  | _ => none

/-! ## `QDataStream` encoding of a `qint64` -/

/-- `QDataStream::operator<<(qint64)` on a fresh stream: the eight bytes of the value, most
significant first (the default byte order of `QDataStream` is big-endian on every host). -/
def writeQint64 (t : Int) : QByteArray :=
  let u : Nat := (t % 18446744073709551616).toNat
  [byteOfNat (u / 72057594037927936), byteOfNat (u / 281474976710656),
   byteOfNat (u / 1099511627776), byteOfNat (u / 4294967296),
   byteOfNat (u / 16777216), byteOfNat (u / 65536), byteOfNat (u / 256), byteOfNat u]

/-- `QDataStream::operator>>(qint64 &)` on a fresh stream over `data`: the first eight bytes,
most significant first, as a two's complement value; `0` when fewer than eight bytes are
there (the stream sets the variable to zero when it reads past the end). -/
def readQint64 (data : QByteArray) : Int :=
  match data with
  | b7 :: b6 :: b5 :: b4 :: b3 :: b2 :: b1 :: b0 :: _ =>
    wrapInt64 (((b7.val * 72057594037927936 + b6.val * 281474976710656
      + b5.val * 1099511627776 + b4.val * 4294967296
      + b3.val * 16777216 + b2.val * 65536 + b1.val * 256 + b0.val : Nat) : Int))
  | _ => 0

/-! ## The network manager (`networkmanager.cpp`) -/

/-- What the manager does that can be observed from outside: the signals of
`networkmanager.h` and the calls on the client socket. -/
inductive NetEvent where
  | connectionStatusChanged (connected : Bool) (message : String)
  | audioDataReceived (data : QByteArray)
  | latencyChanged (latencyMs : Int)
  | error (errorMessage : String)
  | write (socket : Nat) (data : QByteArray)
  | disconnectFromHost (socket : Nat)
  | deleteLater (socket : Nat)
  | connectToHost (socket : Nat) (address : String) (port : Int)
  deriving DecidableEq, Repr

/-- The data members of `NetworkManager`. `clientSocket` is `none` for `nullptr` and
`some h` for the socket with handle `h`; `serverListening` is the state of `server`; the
two timers are kept as their active flag; `latencyTimer` is the time of its last restart;
`log` records the observable events in order. -/
structure NetworkManager where
  serverListening : Bool
  clientSocket : Option Nat
  pingTimerActive : Bool
  sendQueueTimerActive : Bool
  latencyTimer : Option Int
  sendQueue : List QByteArray
  currentLatency : Int
  isServer : Bool
  connected : Bool
  log : List NetEvent
  deriving DecidableEq, Repr

/-- The state the constructor `NetworkManager::NetworkManager` leaves. -/
def NetworkManager.init : NetworkManager :=
  { serverListening := false, clientSocket := none, pingTimerActive := false,
    sendQueueTimerActive := false, latencyTimer := none, sendQueue := [],
    currentLatency := 0, isServer := false, connected := false, log := [] }

/-- `NetworkManager::getLatency`. -/
def getLatency (s : NetworkManager) : Int := s.currentLatency

/-- `NetworkManager::isConnected`. -/
def isConnected (s : NetworkManager) : Bool := s.connected

/-- `NetworkManager::handleAudioPacket`: emits `audioDataReceived(data)`. -/
def handleAudioPacket (s : NetworkManager) (data : QByteArray) : NetworkManager :=
  { s with log := s.log ++ [NetEvent.audioDataReceived data] }

/-- `NetworkManager::handlePingPacket`: writes `createPacket(PACKET_TYPE_PONG, data)` to the
client socket. The function does not test `clientSocket`; its only caller, `readData`, has
tested it, and with no socket the model leaves the state as it is. -/
def handlePingPacket (o : ByteOrder) (s : NetworkManager) (data : QByteArray) :
    NetworkManager :=
  match s.clientSocket with
  | some sock => { s with log := s.log ++ [NetEvent.write sock (createPacket o PACKET_TYPE_PONG data)] }
  | none => s

/-- `NetworkManager::handlePongPacket`, `now` being the value of
`QDateTime::currentMSecsSinceEpoch()`: `latency = static_cast<int>(now - timestamp)`, stored
and signalled only when `latency > 0`. -/
def handlePongPacket (s : NetworkManager) (now : Int) (data : QByteArray) : NetworkManager :=
  let timestamp : Int := readQint64 data
  let latency : Int := wrapInt32 (wrapInt64 (now - timestamp))
  if latency > 0 then
    { s with currentLatency := latency, log := s.log ++ [NetEvent.latencyChanged latency] }
  else s

/-- The `switch (type)` of `readData`: the handler of the packet type; an unknown type is
only traced with `qDebug`. -/
def dispatchPacket (o : ByteOrder) (s : NetworkManager) (now : Int) (type : Byte)
    (payload : QByteArray) : NetworkManager :=
  if type = PACKET_TYPE_AUDIO then handleAudioPacket s payload
  else if type = PACKET_TYPE_PING then handlePingPacket o s payload
  else if type = PACKET_TYPE_PONG then handlePongPacket s now payload
  else s

/-- `NetworkManager::readData` for one `readyRead` event, `data` being what
`clientSocket->readAll()` returns: without a socket nothing happens; otherwise `data` is
parsed once and, when that succeeds, the packet goes to its handler. `data` is a local
variable: nothing of it is kept after the call. -/
def readData (o : ByteOrder) (s : NetworkManager) (now : Int) (data : QByteArray) :
    NetworkManager :=
  match s.clientSocket with
  | none => s
  | some _ =>
    match parsePacket o data with
    | some (type, payload) => dispatchPacket o s now type payload
    | none => s

/-- The packets that one call of `readData` passes to its `switch`, in order: the
arguments with which `dispatchPacket` is entered during the call. -/
def readDataDispatched (o : ByteOrder) (s : NetworkManager) (data : QByteArray) :
    List (Byte × QByteArray) :=
  match s.clientSocket with
  | none => []
  | some _ =>
    match parsePacket o data with
    | some pk => [pk]
    | none => []

/-- `NetworkManager::sendPing` at time `now`: when connected with a socket, writes a ping
packet whose payload is `now` in `QDataStream` encoding and restarts the latency timer. -/
def sendPing (o : ByteOrder) (s : NetworkManager) (now : Int) : NetworkManager :=
  if s.connected = false ∨ s.clientSocket = none then s
  else
    match s.clientSocket with
    | some sock =>
      { s with
        log := s.log ++ [NetEvent.write sock (createPacket o PACKET_TYPE_PING (writeQint64 now))],
        latencyTimer := some now }
    | none => s

/-- The stream of bytes a peer produces by sending the packets `pairs` one after the other:
the concatenation of their `createPacket` encodings. -/
def encodeAll (o : ByteOrder) (pairs : List (Byte × QByteArray)) : QByteArray :=
  (pairs.map (fun pk => createPacket o pk.1 pk.2)).flatten

/-! ## Connection life cycle and send queue (`networkmanager.cpp`)

Each function below is one call of the member function or slot of the same name. The
signals of the socket are connected to slots of the manager in the same thread, so a signal
emitted during a call runs its slot inside that call. `disconnectFromHost` on the client
socket emits signals at once (`disconnectFromHostSignals`); `disconnect` calls it while it
holds `sendQueueMutex`, so the slots run nested in `disconnect` with the mutex held, and a
slot that locks the mutex again never returns: `QMutex` is not recursive. A call is
therefore described by the manager it reaches and by whether it returns (`Call`). The
state changes of a socket that follow `connectToHost` and the events of the peer arrive as
later calls of the slots. -/

/-- The enumeration `QAbstractSocket::SocketState`. -/
inductive SocketState where
  | UnconnectedState
  | HostLookupState
  | ConnectingState
  | ConnectedState
  | BoundState
  | ListeningState
  | ClosingState
  deriving DecidableEq, Repr

/-- The lambda that `connectToServer` connects to the signal `connected` of the socket. -/
def socketConnected (s : NetworkManager) : NetworkManager :=
  { s with
    connected := true,
    log := s.log ++ [NetEvent.connectionStatusChanged true "Connected to server"],
    pingTimerActive := true,
    sendQueueTimerActive := true }

/-- `NetworkManager::sendAudioData`: the state after the call and the value returned. -/
def sendAudioData (o : ByteOrder) (s : NetworkManager) (data : QByteArray) :
    NetworkManager × Bool :=
  if s.connected = false ∨ s.clientSocket = none then (s, false)
  else
    let packet := createPacket o PACKET_TYPE_AUDIO data
    ({ s with sendQueue := s.sendQueue ++ [packet] }, true)

/-- `NetworkManager::handleNewConnection`; `pending` is the socket that
`server->nextPendingConnection()` returns and `peerAddress` the text of its peer address. -/
def handleNewConnection (s : NetworkManager) (pending : Nat) (peerAddress : String) :
    NetworkManager :=
  match s.clientSocket with
  | some _ =>
    { s with log := s.log ++ [NetEvent.disconnectFromHost pending, NetEvent.deleteLater pending] }
  | none =>
    { s with
      clientSocket := some pending,
      connected := true,
      log := s.log ++
        [NetEvent.connectionStatusChanged true ("Client connected from " ++ peerAddress)],
      pingTimerActive := true,
      sendQueueTimerActive := true }

/-- `NetworkManager::handleDisconnect`. -/
def handleDisconnect (s : NetworkManager) : NetworkManager :=
  let s1 : NetworkManager := { s with pingTimerActive := false, sendQueueTimerActive := false }
  let s2 : NetworkManager :=
    match s1.clientSocket with
    | some sock => { s1 with clientSocket := none, log := s1.log ++ [NetEvent.deleteLater sock] }
    | none => s1
  { s2 with
    connected := false,
    log := s2.log ++
      [NetEvent.connectionStatusChanged false
        (if s2.isServer = true then "Client disconnected" else "Disconnected from server")],
    sendQueue := [] }

/-- `NetworkManager::handleSocketError`; `errorString` is the text of
`clientSocket->errorString()`. -/
def handleSocketError (s : NetworkManager) (errorString : String) : NetworkManager :=
  match s.clientSocket with
  | none => s
  | some _ =>
    let s1 : NetworkManager :=
      { s with log := s.log ++ [NetEvent.error ("Network error: " ++ errorString)] }
    if s1.connected = true then handleDisconnect s1 else s1

/-- `NetworkManager::handleSocketStateChange`. -/
def handleSocketStateChange (s : NetworkManager) (state : SocketState) : NetworkManager :=
  match s.clientSocket with
  | none => s
  | some _ =>
    match state with
    | SocketState.ConnectingState =>
      { s with log := s.log ++ [NetEvent.connectionStatusChanged false "Connecting..."] }
    | SocketState.ConnectedState =>
      { s with log := s.log ++ [NetEvent.connectionStatusChanged true "Connected"] }
    | SocketState.ClosingState =>
      { s with log := s.log ++ [NetEvent.connectionStatusChanged false "Disconnecting..."] }
    | SocketState.UnconnectedState => if s.connected = true then handleDisconnect s else s
    | _ => s

/-- How a call of the manager ends: `state` is the manager when the call returns, or at
the point where the call blocks for ever; `result` is the value returned, and `none` when
the call never returns. -/
structure Call (α : Type) where
  state : NetworkManager
  result : Option α
  deriving DecidableEq, Repr

/-- The signals of a `QTcpSocket` that have a slot of the manager connected and that
`disconnectFromHost` can emit. -/
inductive SocketSignal where
  | stateChanged (state : SocketState)
  | disconnected
  deriving DecidableEq, Repr

/-- Qt 5 `QAbstractSocket::disconnectFromHost()` on a socket in the state `state`, with
`pendingWrite` saying that written bytes have not been sent yet: the signals it emits
before it returns, in order. An unconnected socket and one that is still looking up or
connecting emit nothing; otherwise the socket emits `stateChanged(ClosingState)` unless it
is closing already, then, when nothing is left to write, `stateChanged(UnconnectedState)`
and `disconnected()`. -/
def disconnectFromHostSignals (state : SocketState) (pendingWrite : Bool) : List SocketSignal :=
  match state with
  | SocketState.UnconnectedState => []
  | SocketState.HostLookupState => []
  | SocketState.ConnectingState => []
  | _ =>
    (if state = SocketState.ClosingState then []
      else [SocketSignal.stateChanged SocketState.ClosingState]) ++
    (if pendingWrite = true then []
      else [SocketSignal.stateChanged SocketState.UnconnectedState, SocketSignal.disconnected])

/-- `NetworkManager::handleDisconnect` up to the line `QMutexLocker locker(&sendQueueMutex)`:
everything but the clearing of the send queue. -/
def handleDisconnectUntilLock (s : NetworkManager) : NetworkManager :=
  let s1 : NetworkManager := { s with pingTimerActive := false, sendQueueTimerActive := false }
  let s2 : NetworkManager :=
    match s1.clientSocket with
    | some sock => { s1 with clientSocket := none, log := s1.log ++ [NetEvent.deleteLater sock] }
    | none => s1
  { s2 with
    connected := false,
    log := s2.log ++
      [NetEvent.connectionStatusChanged false
        (if s2.isServer = true then "Client disconnected" else "Disconnected from server")] }

/-- The slot of a signal of the client socket, run while the calling thread holds
`sendQueueMutex`: `stateChanged` runs `handleSocketStateChange` and `disconnected` runs
`handleDisconnect`. Where `handleDisconnect` is entered it runs up to its lock and blocks
there. -/
def nestedSlot (s : NetworkManager) : SocketSignal → Call Unit
  | SocketSignal.stateChanged state =>
    if state = SocketState.UnconnectedState ∧ s.clientSocket ≠ none ∧ s.connected = true then
      { state := handleDisconnectUntilLock s, result := none }
    else { state := handleSocketStateChange s state, result := some () }
  | SocketSignal.disconnected => { state := handleDisconnectUntilLock s, result := none }

/-- The slots of a list of signals, run one after the other while the mutex is held; the
run ends where a slot blocks. -/
def nestedSlots (s : NetworkManager) : List SocketSignal → Call Unit
  | [] => { state := s, result := some () }
  | sig :: rest =>
    match (nestedSlot s sig).result with
    | none => nestedSlot s sig
    | some _ => nestedSlots (nestedSlot s sig).state rest

/-- The end of `NetworkManager::disconnect`, after the socket has been dealt with: closes
the server in server mode, sets `connected = false` and emits the status "Disconnected". -/
def disconnectFinish (s : NetworkManager) : NetworkManager :=
  let s3 : NetworkManager := if s.isServer = true then { s with serverListening := false } else s
  { s3 with
    connected := false,
    log := s3.log ++ [NetEvent.connectionStatusChanged false "Disconnected"] }

/-- `NetworkManager::disconnect`; `socketState` and `pendingWrite` describe the client
socket at the time of the call. The call stops both timers, locks `sendQueueMutex` and
clears the send queue; with a client socket it calls `disconnectFromHost`, whose signals run
their slots at once, then `deleteLater`, and forgets the socket; it closes the server in
server mode, sets `connected = false` and emits the status "Disconnected". When a nested
slot blocks, so does the call. -/
def disconnect (s : NetworkManager) (socketState : SocketState) (pendingWrite : Bool) :
    Call Unit :=
  let s1 : NetworkManager :=
    { s with pingTimerActive := false, sendQueueTimerActive := false, sendQueue := [] }
  match s1.clientSocket with
  | none => { state := disconnectFinish s1, result := some () }
  | some sock =>
    let c := nestedSlots { s1 with log := s1.log ++ [NetEvent.disconnectFromHost sock] }
      (disconnectFromHostSignals socketState pendingWrite)
    match c.result with
    | none => c
    | some _ =>
      { state := disconnectFinish
          { c.state with clientSocket := none, log := c.state.log ++ [NetEvent.deleteLater sock] },
        result := some () }

/-- `NetworkManager::startServer`; `listenOk` is the result of `server->listen(Any, port)` and
`errorString` the text of `server->errorString()`; `socketState` and `pendingWrite` describe
the client socket for the `disconnect` the call starts with. -/
def startServer (s : NetworkManager) (port : Int) (listenOk : Bool) (errorString : String)
    (socketState : SocketState) (pendingWrite : Bool) : Call Bool :=
  let c := disconnect s socketState pendingWrite
  match c.result with
  | none => { state := c.state, result := none }
  | some _ =>
    let s1 := c.state
    if listenOk = false then
      { state :=
          { s1 with log := s1.log ++ [NetEvent.error ("Failed to start server: " ++ errorString)] },
        result := some false }
    else
      { state :=
          { s1 with
            serverListening := true,
            isServer := true,
            log := s1.log ++
              [NetEvent.connectionStatusChanged false
                ("Listening on port " ++ toString port ++ "...")] },
        result := some true }

/-- `NetworkManager::connectToServer`; `socket` is the handle of the `QTcpSocket` the call
creates; `socketState` and `pendingWrite` describe the former client socket for the
`disconnect` the call starts with. -/
def connectToServer (s : NetworkManager) (address : String) (port : Int) (socket : Nat)
    (socketState : SocketState) (pendingWrite : Bool) : Call Bool :=
  let c := disconnect s socketState pendingWrite
  match c.result with
  | none => { state := c.state, result := none }
  | some _ =>
    let s1 := c.state
    { state :=
        { s1 with
          clientSocket := some socket,
          isServer := false,
          log := s1.log ++
            [NetEvent.connectToHost socket address port,
             NetEvent.connectionStatusChanged false
              ("Connecting to " ++ address ++ ":" ++ toString port ++ "...")] },
      result := some true }

/-- The `for` loop of `processSendQueue` with `k` iterations left: it stops early on an
empty queue, otherwise dequeues the head and writes it to the socket. -/
def drainLoop (sock : Nat) : Nat → NetworkManager → NetworkManager
  | 0, s => s
  | k + 1, s =>
    match s.sendQueue with
    | [] => s
    | packet :: rest =>
      drainLoop sock k { s with sendQueue := rest, log := s.log ++ [NetEvent.write sock packet] }

/-- `NetworkManager::processSendQueue`: when connected with a socket, runs the loop
`count = qMin(10, sendQueue.size())` times. -/
def processSendQueue (s : NetworkManager) : NetworkManager :=
  if s.connected = false then s
  else
    match s.clientSocket with
    | none => s
    | some sock => drainLoop sock (min 10 s.sendQueue.length) s

/-- The packets written to a socket, in order, among the events of a log. -/
def writtenPackets (log : List NetEvent) : List QByteArray :=
  log.filterMap (fun e =>
    match e with
    | NetEvent.write _ data => some data
    | _ => none)

/-- The number of `connectionStatusChanged` notifications with `connected = true` in a log. -/
def statusTrueCount (log : List NetEvent) : Nat :=
  (log.filter (fun e =>
    match e with
    | NetEvent.connectionStatusChanged true _ => true
    | _ => false)).length

/-- One step of a connected session as the audio engine and the drain timer see it: a call
of `sendAudioData` or a tick of the send-queue timer. -/
inductive SessionStep where
  | send (data : QByteArray)
  | drainTick
  deriving DecidableEq, Repr

/-- The manager after the steps of a session, taken in order. -/
def sessionRun (o : ByteOrder) (s : NetworkManager) : List SessionStep → NetworkManager
  | [] => s
  | SessionStep.send data :: rest => sessionRun o (sendAudioData o s data).1 rest
  | SessionStep.drainTick :: rest => sessionRun o (processSendQueue s) rest

/-- The audio packets that the `sendAudioData` calls among the steps hand over, in order. -/
def enqueuedPackets (o : ByteOrder) (steps : List SessionStep) : List QByteArray :=
  steps.filterMap (fun st =>
    match st with
    | SessionStep.send data => some (createPacket o PACKET_TYPE_AUDIO data)
    | SessionStep.drainTick => none)

/-- Everything that can happen to a manager: the public calls, the signal of the server,
the signals of the client socket and the timeouts of the two timers (a timer fires only
while it is active). The calls that start with `disconnect` carry the state of the client
socket at that time. -/
inductive NetAction where
  | startServer (port : Int) (listenOk : Bool) (errorString : String)
      (socketState : SocketState) (pendingWrite : Bool)
  | connectToServer (address : String) (port : Int) (socket : Nat)
      (socketState : SocketState) (pendingWrite : Bool)
  | disconnect (socketState : SocketState) (pendingWrite : Bool)
  | sendAudioData (data : QByteArray)
  | newConnection (pending : Nat) (peerAddress : String)
  | socketConnected
  | socketDisconnected
  | socketError (errorString : String)
  | socketStateChanged (state : SocketState)
  | readyRead (now : Int) (data : QByteArray)
  | pingTimeout (now : Int)
  | sendQueueTimeout
  deriving DecidableEq, Repr

/-- One action as a call: the manager it reaches and whether it returns. -/
def netCall (o : ByteOrder) (s : NetworkManager) : NetAction → Call Unit
  | NetAction.startServer port listenOk errorString socketState pendingWrite =>
    let c := startServer s port listenOk errorString socketState pendingWrite
    { state := c.state, result := c.result.map (fun _ => ()) }
  | NetAction.connectToServer address port socket socketState pendingWrite =>
    let c := connectToServer s address port socket socketState pendingWrite
    { state := c.state, result := c.result.map (fun _ => ()) }
  | NetAction.disconnect socketState pendingWrite => disconnect s socketState pendingWrite
  | NetAction.sendAudioData data => { state := (sendAudioData o s data).1, result := some () }
  | NetAction.newConnection pending peerAddress =>
    { state := handleNewConnection s pending peerAddress, result := some () }
  | NetAction.socketConnected => { state := socketConnected s, result := some () }
  | NetAction.socketDisconnected => { state := handleDisconnect s, result := some () }
  | NetAction.socketError errorString =>
    { state := handleSocketError s errorString, result := some () }
  | NetAction.socketStateChanged state =>
    { state := handleSocketStateChange s state, result := some () }
  | NetAction.readyRead now data => { state := readData o s now data, result := some () }
  | NetAction.pingTimeout now =>
    { state := if s.pingTimerActive = true then sendPing o s now else s, result := some () }
  | NetAction.sendQueueTimeout =>
    { state := if s.sendQueueTimerActive = true then processSendQueue s else s,
      result := some () }

/-- The manager together with the fact that its thread is blocked in a call that never
returns; nothing happens to a blocked manager any more. -/
structure NetWorld where
  manager : NetworkManager
  blocked : Bool
  deriving DecidableEq, Repr

/-- The manager after one action; a blocked manager stays as it is. -/
def netStep (o : ByteOrder) (w : NetWorld) (a : NetAction) : NetWorld :=
  if w.blocked = true then w
  else { manager := (netCall o w.manager a).state, blocked := (netCall o w.manager a).result.isNone }

/-- The manager after a sequence of actions, taken in order, up to the action that
blocks it if there is one. -/
def netRun (o : ByteOrder) (s : NetworkManager) (actions : List NetAction) : NetworkManager :=
  (actions.foldl (netStep o) { manager := s, blocked := false }).manager

/-! ## The audio engine (`audiomanager.cpp`) -/

/-- The enumeration `TransmissionMode` of `audiomanager.h`. -/
inductive TransmissionMode where
  | Raw
  | Opus
  deriving DecidableEq, Repr

/-- The data members of `AudioManager`. A stream pointer is `none` for `nullptr` and
`some h` for the stream with handle `h`; the two placeholder codec pointers are kept as
"is not null". -/
structure AudioManager where
  inputStream : Option Nat
  outputStream : Option Nat
  inputBuffer : QByteArray
  outputBuffer : QByteArray
  sampleRate : Int
  bufferSize : Int
  channels : Int
  transmissionMode : TransmissionMode
  isInitialized : Bool
  isRunning : Bool
  opusEncoder : Bool
  opusDecoder : Bool
  deriving DecidableEq, Repr

/-- The state the constructor `AudioManager::AudioManager` leaves. -/
def AudioManager.init : AudioManager :=
  { inputStream := none, outputStream := none, inputBuffer := [], outputBuffer := [],
    sampleRate := 48000, bufferSize := 256, channels := 2,
    transmissionMode := TransmissionMode.Raw, isInitialized := false, isRunning := false,
    opusEncoder := false, opusDecoder := false }

/-- The four characters of the marker "OPUS". -/
def opusMarker : QByteArray := [79, 80, 85, 83]

/-- `AudioManager::encodeAudio`: the marker followed by the raw data. -/
def encodeAudio (rawData : QByteArray) : QByteArray := opusMarker ++ rawData

/-- `AudioManager::decodeAudio`: `encodedData.mid(4)` when the data starts with the marker,
the data itself otherwise (`mid(4)` is `mid(4, -1)`). -/
def decodeAudio (encodedData : QByteArray) : QByteArray :=
  if encodedData.take 4 = opusMarker then mid encodedData 4 (-1) else encodedData

/-- `AudioManager::processIncomingAudio`: when running, the (decoded, in Opus mode) data
replaces `outputBuffer`. -/
def processIncomingAudio (s : AudioManager) (data : QByteArray) : AudioManager :=
  if s.isRunning = false then s
  else
    let processedData : QByteArray :=
      if s.transmissionMode = TransmissionMode.Opus then decodeAudio data else data
    { s with outputBuffer := processedData }

/-- The `size_t bytesToCopy` of `outputCallback`:
`framesPerBuffer * (channels * sizeof(float))`, in 64-bit unsigned arithmetic. -/
def bytesToCopy (s : AudioManager) (framesPerBuffer : Nat) : Nat :=
  let bytesPerFrame : Nat := ((s.channels % 18446744073709551616).toNat * 4) % 18446744073709551616
  (framesPerBuffer * bytesPerFrame) % 18446744073709551616

/-- `AudioManager::outputCallback` with `userData` pointing to `s`; `hasOutputBuffer` says
that the pointer `outputBuffer` is not null. The result is the manager after the call and
the bytes the call stores at the start of the hardware buffer (`none`: nothing is stored):
the first `bytesToCopy` bytes of the slot when the slot holds at least that many, and
`bytesToCopy` zero bytes otherwise. -/
def outputCallback (s : AudioManager) (hasOutputBuffer : Bool) (framesPerBuffer : Nat) :
    AudioManager × Option QByteArray :=
  if hasOutputBuffer = false then (s, none)
  else
    let n : Nat := bytesToCopy s framesPerBuffer
    if s.outputBuffer.length ≥ n then (s, some (s.outputBuffer.take n))
    else (s, some (List.replicate n 0))

/-- A run of playback callbacks on a non-null hardware buffer, one for each entry of
`periods` (its `framesPerBuffer`), with no other call in between: the manager after the
run and the bytes each callback stored. -/
def playbackRun (s : AudioManager) (periods : List Nat) : AudioManager × List (Option QByteArray) :=
  match periods with
  | [] => (s, [])
  | f :: rest =>
    let r := outputCallback s true f
    let r2 := playbackRun r.1 rest
    (r2.1, r.2 :: r2.2)

/-! ## The level meter (`audiomanager.cpp`)

`calculateAudioLevel` computes in `float`. The embedding takes the arithmetic of `float` as
a parameter: a type `F` for the values and the operations the function uses on them, with
no assumption on what they compute, so that what is proved holds for every behaviour of
the floating-point unit, NaN and infinities included. -/

/-- The operations on `float` used by `calculateAudioLevel`: the conversion of an integer
(a literal such as `20.0f`, or the `unsigned long size`) to `float`, `+`, `*`, `/`,
`std::sqrt`, `std::log10`, and `static_cast<int>`. The conversion to `int` is taken to
yield some `int` for every value, as the conversion instructions of the hardware do, also
for NaN, the infinities and values out of the range of `int`. -/
structure FloatOps (F : Type) where
  ofNat : Nat → F
  add : F → F → F
  mul : F → F → F
  div : F → F → F
  sqrt : F → F
  log10 : F → F
  toInt : F → Int

/-- The loop of `calculateAudioLevel`: `sum` after adding `data[i] * data[i]` for
`i = 0, ..., size - 1`, starting from `0.0f`. -/
def sumSquares {F : Type} (ops : FloatOps F) (data : Nat → F) (size : Nat) : F :=
  (List.range size).foldl (fun sum i => ops.add sum (ops.mul (data i) (data i))) (ops.ofNat 0)

/-- `AudioManager::calculateAudioLevel`; `data` is `none` for a null pointer and otherwise
gives the sample at each index. -/
def calculateAudioLevel {F : Type} (ops : FloatOps F) (data : Option (Nat → F)) (size : Nat) :
    Int :=
  match data with
  | none => 0
  | some d =>
    if size = 0 then 0
    else
      let sum := sumSquares ops d size
      let rms := ops.sqrt (ops.div sum (ops.ofNat size))
      let db := ops.mul (ops.ofNat 20) (ops.log10 rms)
      let level : Int :=
        ops.toInt (ops.div (ops.mul (ops.add db (ops.ofNat 60)) (ops.ofNat 100)) (ops.ofNat 60))
      max 0 (min 100 level)

/-- The argument with which one call of `calculateAudioLevel` evaluates `std::log10`:
`none` when the call returns before that line (null buffer or `size == 0`), otherwise the
value of `rms`. -/
def levelLog10Argument {F : Type} (ops : FloatOps F) (data : Option (Nat → F)) (size : Nat) :
    Option F :=
  match data with
  | none => none
  | some d =>
    if size = 0 then none
    else some (ops.sqrt (ops.div (sumSquares ops d size) (ops.ofNat size)))

/-- The values of a small arithmetic used to run the level meter on examples: the integers
with the two infinities and NaN. -/
inductive ExtInt where
  | negInf
  | fin (n : Int)
  | posInf
  | nan
  deriving DecidableEq, Repr

/-- Sum of two values, as IEEE 754 adds: exact on integers, an infinity absorbs every finite
value, opposite infinities and NaN give NaN. -/
def ExtInt.add : ExtInt → ExtInt → ExtInt
  | ExtInt.fin a, ExtInt.fin b => ExtInt.fin (a + b)
  | ExtInt.nan, _ => ExtInt.nan
  | _, ExtInt.nan => ExtInt.nan
  | ExtInt.negInf, ExtInt.posInf => ExtInt.nan
  | ExtInt.posInf, ExtInt.negInf => ExtInt.nan
  | ExtInt.negInf, _ => ExtInt.negInf
  | _, ExtInt.negInf => ExtInt.negInf
  | ExtInt.posInf, _ => ExtInt.posInf
  | _, ExtInt.posInf => ExtInt.posInf

/-- Sign of an integer as a value: `-1`, `0` or `1`. -/
def ExtInt.signOf (a : Int) : Int := if a < 0 then -1 else if a = 0 then 0 else 1

/-- The infinity of the sign `sg`, NaN for the sign `0`. -/
def ExtInt.infOfSign (sg : Int) : ExtInt :=
  if sg < 0 then ExtInt.negInf else if sg = 0 then ExtInt.nan else ExtInt.posInf

/-- Product of two values, as IEEE 754 multiplies: exact on integers, an infinity times a
non-zero value is the infinity of the product of the signs, an infinity times zero and
NaN give NaN. -/
def ExtInt.mul : ExtInt → ExtInt → ExtInt
  | ExtInt.fin a, ExtInt.fin b => ExtInt.fin (a * b)
  | ExtInt.nan, _ => ExtInt.nan
  | _, ExtInt.nan => ExtInt.nan
  | ExtInt.negInf, ExtInt.fin b => ExtInt.infOfSign (-(ExtInt.signOf b))
  | ExtInt.posInf, ExtInt.fin b => ExtInt.infOfSign (ExtInt.signOf b)
  | ExtInt.fin a, ExtInt.negInf => ExtInt.infOfSign (-(ExtInt.signOf a))
  | ExtInt.fin a, ExtInt.posInf => ExtInt.infOfSign (ExtInt.signOf a)
  | ExtInt.negInf, ExtInt.negInf => ExtInt.posInf
  | ExtInt.posInf, ExtInt.posInf => ExtInt.posInf
  | ExtInt.negInf, ExtInt.posInf => ExtInt.negInf
  | ExtInt.posInf, ExtInt.negInf => ExtInt.negInf

/-- Quotient of two values: the integer quotient of two integers (exact when the divisor
divides, as `0 / n` and `n / 1`), a non-zero integer over zero is the infinity of its sign,
`0 / 0` is NaN, an infinity over an integer keeps or flips its sign, an integer over an
infinity is `0`, an infinity over an infinity and NaN give NaN. -/
def ExtInt.div : ExtInt → ExtInt → ExtInt
  | ExtInt.fin a, ExtInt.fin b =>
    if b = 0 then ExtInt.infOfSign (ExtInt.signOf a) else ExtInt.fin (a / b)
  | ExtInt.nan, _ => ExtInt.nan
  | _, ExtInt.nan => ExtInt.nan
  | ExtInt.negInf, ExtInt.fin b => if b < 0 then ExtInt.posInf else ExtInt.negInf
  | ExtInt.posInf, ExtInt.fin b => if b < 0 then ExtInt.negInf else ExtInt.posInf
  | ExtInt.fin _, ExtInt.negInf => ExtInt.fin 0
  | ExtInt.fin _, ExtInt.posInf => ExtInt.fin 0
  | ExtInt.negInf, ExtInt.negInf => ExtInt.nan
  | ExtInt.posInf, ExtInt.posInf => ExtInt.nan
  | ExtInt.negInf, ExtInt.posInf => ExtInt.nan
  | ExtInt.posInf, ExtInt.negInf => ExtInt.nan

/-- Square root: the integer square root of a non-negative integer (exact on squares, so
`sqrt 0 = 0`), NaN below zero and for minus infinity. -/
def ExtInt.sqrt : ExtInt → ExtInt
  | ExtInt.fin a => if a < 0 then ExtInt.nan else ExtInt.fin (Nat.sqrt a.toNat)
  | ExtInt.posInf => ExtInt.posInf
  | _ => ExtInt.nan

/-- Decimal logarithm: minus infinity at `0`, as `std::log10(0.0f)` is; the integer
logarithm of a positive integer (exact on powers of ten); NaN below zero. -/
def ExtInt.log10 : ExtInt → ExtInt
  | ExtInt.fin a =>
    if a < 0 then ExtInt.nan
    else if a = 0 then ExtInt.negInf
    else ExtInt.fin (Nat.log 10 a.toNat)
  | ExtInt.posInf => ExtInt.posInf
  | _ => ExtInt.nan

/-- Conversion to `int`: the integer itself when it fits; `INT_MIN` otherwise and for the
infinities and NaN, which is what the conversion instruction of x86 returns for them. -/
def ExtInt.toInt : ExtInt → Int
  | ExtInt.fin a => if -2147483648 ≤ a ∧ a < 2147483648 then a else -2147483648
  | _ => -2147483648

/-- The arithmetic of `ExtInt` as an instance of the operations of the level meter. It
agrees with IEEE 754 single precision on every value met on a silent period: `0 * 0`,
`0 + 0`, `0 / n`, `sqrt 0`, `log10 0` and the arithmetic on minus infinity after it. -/
def extIntOps : FloatOps ExtInt :=
  { ofNat := fun n => ExtInt.fin n,
    add := ExtInt.add, mul := ExtInt.mul, div := ExtInt.div,
    sqrt := ExtInt.sqrt, log10 := ExtInt.log10, toInt := ExtInt.toInt }

/-- A buffer of samples that are all `0.0f`. -/
def silentBuffer : Nat → ExtInt := fun _ => ExtInt.fin 0

/-- The facts on `0.0f` that hold in IEEE 754 arithmetic and make a silent period sum to
zero: `0 * 0 = 0`, `0 + 0 = 0`, `0 / n = 0` for `n > 0`, `sqrt 0 = 0`. -/
def ZeroLaws {F : Type} (ops : FloatOps F) : Prop :=
  ops.mul (ops.ofNat 0) (ops.ofNat 0) = ops.ofNat 0 ∧
  ops.add (ops.ofNat 0) (ops.ofNat 0) = ops.ofNat 0 ∧
  (∀ n : Nat, 0 < n → ops.div (ops.ofNat 0) (ops.ofNat n) = ops.ofNat 0) ∧
  ops.sqrt (ops.ofNat 0) = ops.ofNat 0

/-! ## The engine and the PortAudio library (`audiomanager.cpp`)

`initialize`, `start`, `stop` and `setTransmissionMode` act on the data members of the
manager and on the PortAudio library. The library is a state of its own: the devices it
lists, the number of `Pa_Initialize` calls made so far, and the handles of the streams that
are open and of those that are started. Whether a call of the library succeeds is not
decided by the program; each model function takes the answers of the library as the
parameter `PaOutcome`. The search for the device index in `start`, the stream parameters
and the read of `Pa_GetDeviceInfo(index)->defaultLow...Latency` only prepare the arguments
of `Pa_OpenStream`; they change no data member and are left out. -/

/-- What `Pa_GetDeviceInfo` tells about a device, as far as the program reads it. -/
structure PaDeviceInfo where
  name : String
  maxInputChannels : Int
  maxOutputChannels : Int
  deriving DecidableEq, Repr

/-- The PortAudio library as the engine sees it: its devices, the number of calls of
`Pa_Initialize` so far, the number of those that succeeded, the handles of the open streams
and of the started streams in the order they were opened and started, and the handle the
next successful `Pa_OpenStream` hands out. -/
structure PortAudio where
  devices : List PaDeviceInfo
  initializeCalls : Nat
  initializeCount : Nat
  openStreams : List Nat
  startedStreams : List Nat
  nextStream : Nat
  deriving DecidableEq, Repr

/-- The answers of the library to the calls one operation makes: whether `Pa_Initialize`,
`Pa_OpenStream` for the input stream, `Pa_OpenStream` for the output stream,
`Pa_StartStream` for the input stream and `Pa_StartStream` for the output stream return
`paNoError`, and the text `Pa_GetErrorText` gives for a failure. -/
structure PaOutcome where
  initializeOk : Bool
  openInputOk : Bool
  openOutputOk : Bool
  startInputOk : Bool
  startOutputOk : Bool
  errorText : String
  deriving DecidableEq, Repr

/-- The engine: the data members of `AudioManager`, the PortAudio library, and the texts of
the `error` signals emitted so far. -/
structure Engine where
  manager : AudioManager
  backend : PortAudio
  errors : List String
  deriving DecidableEq, Repr

/-- A successful `Pa_OpenStream`: the library with the new stream open, and its handle. -/
def PortAudio.openStream (pa : PortAudio) : PortAudio × Nat :=
  ({ pa with openStreams := pa.openStreams ++ [pa.nextStream], nextStream := pa.nextStream + 1 },
    pa.nextStream)

/-- A successful `Pa_StartStream` on the stream `h`. -/
def PortAudio.startStream (pa : PortAudio) (h : Nat) : PortAudio :=
  { pa with startedStreams := pa.startedStreams ++ [h] }

/-- `Pa_StopStream` on the stream `h`: it is no longer started. -/
def PortAudio.stopStream (pa : PortAudio) (h : Nat) : PortAudio :=
  { pa with startedStreams := pa.startedStreams.filter (fun x => x ≠ h) }

/-- `Pa_CloseStream` on the stream `h`: it is no longer open, nor started. -/
def PortAudio.closeStream (pa : PortAudio) (h : Nat) : PortAudio :=
  { pa with
    openStreams := pa.openStreams.filter (fun x => x ≠ h),
    startedStreams := pa.startedStreams.filter (fun x => x ≠ h) }

/-- `AudioManager::initialize`: the engine after the call and the value returned. -/
def initializeEngine (e : Engine) (out : PaOutcome) : Engine × Bool :=
  if e.manager.isInitialized = true then (e, true)
  else
    let pa : PortAudio := { e.backend with initializeCalls := e.backend.initializeCalls + 1 }
    if out.initializeOk = false then
      ({ e with
          backend := pa,
          errors := e.errors ++ ["PortAudio initialization failed: " ++ out.errorText] },
        false)
    else
      ({ e with
          manager := { e.manager with isInitialized := true },
          backend := { pa with initializeCount := pa.initializeCount + 1 } },
        true)

/-- `AudioManager::stop`. -/
def stop (e : Engine) : Engine :=
  if e.manager.isRunning = false then e
  else
    let e1 : Engine :=
      match e.manager.inputStream with
      | some h =>
        { e with
          manager := { e.manager with inputStream := none },
          backend := (e.backend.stopStream h).closeStream h }
      | none => e
    let e2 : Engine :=
      match e1.manager.outputStream with
      | some h =>
        { e1 with
          manager := { e1.manager with outputStream := none },
          backend := (e1.backend.stopStream h).closeStream h }
      | none => e1
    let m3 : AudioManager :=
      if e2.manager.transmissionMode = TransmissionMode.Opus then
        { e2.manager with opusEncoder := false, opusDecoder := false }
      else e2.manager
    { e2 with manager := { m3 with isRunning := false } }

/-- `AudioManager::start`: the engine after the call and the value returned. The two device
names only select the device of each stream. -/
def start (e : Engine) (_inputDeviceName _outputDeviceName : String)
    (sampleRate bufferSize : Int) (mode : TransmissionMode) (out : PaOutcome) :
    Engine × Bool :=
  let e0 : Engine := if e.manager.isRunning = true then stop e else e
  let r1 : Engine × Bool :=
    if e0.manager.isInitialized = true then (e0, true) else initializeEngine e0 out
  if r1.2 = false then (r1.1, false)
  else
    let e2 : Engine :=
      { r1.1 with
        manager :=
          { r1.1.manager with
            sampleRate := sampleRate, bufferSize := bufferSize, transmissionMode := mode } }
    if out.openInputOk = false then
      ({ e2 with errors := e2.errors ++ ["Failed to open input stream: " ++ out.errorText] },
        false)
    else
      let oi := e2.backend.openStream
      let e3 : Engine :=
        { e2 with manager := { e2.manager with inputStream := some oi.2 }, backend := oi.1 }
      if out.openOutputOk = false then
        ({ e3 with
            manager := { e3.manager with inputStream := none },
            backend := e3.backend.closeStream oi.2,
            errors := e3.errors ++ ["Failed to open output stream: " ++ out.errorText] },
          false)
      else
        let oo := e3.backend.openStream
        let e4 : Engine :=
          { e3 with manager := { e3.manager with outputStream := some oo.2 }, backend := oo.1 }
        if out.startInputOk = false then
          ({ e4 with
              manager := { e4.manager with inputStream := none, outputStream := none },
              backend := (e4.backend.closeStream oi.2).closeStream oo.2,
              errors := e4.errors ++ ["Failed to start input stream: " ++ out.errorText] },
            false)
        else
          let e5 : Engine := { e4 with backend := e4.backend.startStream oi.2 }
          if out.startOutputOk = false then
            ({ e5 with
                manager := { e5.manager with inputStream := none, outputStream := none },
                backend := (((e5.backend.stopStream oi.2).closeStream oi.2).closeStream oo.2),
                errors := e5.errors ++ ["Failed to start output stream: " ++ out.errorText] },
              false)
          else
            let e6 : Engine := { e5 with backend := e5.backend.startStream oo.2 }
            let m7 : AudioManager :=
              if e6.manager.transmissionMode = TransmissionMode.Opus then
                { e6.manager with opusEncoder := true, opusDecoder := true }
              else e6.manager
            ({ e6 with manager := { m7 with isRunning := true } }, true)

/-- `AudioManager::getInputDevices`: the engine after the call (the function initializes
the library when that has not been done) and the names of the devices with an input
channel; the empty list when the initialization fails. -/
def getInputDevices (e : Engine) (out : PaOutcome) : Engine × List String :=
  let r : Engine × Bool :=
    if e.manager.isInitialized = true then (e, true) else initializeEngine e out
  if r.2 = false then (r.1, [])
  else
    (r.1, (r.1.backend.devices.filter (fun d => decide (d.maxInputChannels > 0))).map
      (fun d => d.name))

/-- `AudioManager::getOutputDevices`: as `getInputDevices`, for the output channels. -/
def getOutputDevices (e : Engine) (out : PaOutcome) : Engine × List String :=
  let r : Engine × Bool :=
    if e.manager.isInitialized = true then (e, true) else initializeEngine e out
  if r.2 = false then (r.1, [])
  else
    (r.1, (r.1.backend.devices.filter (fun d => decide (d.maxOutputChannels > 0))).map
      (fun d => d.name))

/-- `AudioManager::setTransmissionMode`. The new mode is stored first; a running engine is
then stopped and started again on the first input and the first output device. The result
is `none` when a device list is empty: `at(0)` is then out of range and the program does
not continue. -/
def setTransmissionMode (e : Engine) (mode : TransmissionMode) (out : PaOutcome) :
    Option Engine :=
  if e.manager.transmissionMode = mode then some e
  else
    let e1 : Engine := { e with manager := { e.manager with transmissionMode := mode } }
    if e1.manager.isRunning = false then some e1
    else
      let ri := getInputDevices e1 out
      match ri.2 with
      | [] => none
      | inputDevice :: _ =>
        let ro := getOutputDevices ri.1 out
        match ro.2 with
        | [] => none
        | outputDevice :: _ =>
          some (start (stop ro.1) inputDevice outputDevice ro.1.manager.sampleRate
            ro.1.manager.bufferSize mode out).1

/-- The engine is consistent with the library: the open streams and the started streams
of the library are exactly the streams the manager points to, and a manager that is not
running points to no stream. -/
def EngineInv (e : Engine) : Prop :=
  e.backend.openStreams = e.manager.inputStream.toList ++ e.manager.outputStream.toList ∧
  e.backend.startedStreams = e.manager.inputStream.toList ++ e.manager.outputStream.toList ∧
  (e.manager.isRunning = false →
    e.manager.inputStream = none ∧ e.manager.outputStream = none)

/-- A library with one duplex device and nothing initialized or open. -/
def oneDeviceLibrary : PortAudio :=
  { devices := [{ name := "default", maxInputChannels := 2, maxOutputChannels := 2 }],
    initializeCalls := 0, initializeCount := 0, openStreams := [], startedStreams := [],
    nextStream := 1 }

/-- The engine right after the constructor, on the library with one device. -/
def freshEngine : Engine :=
  { manager := AudioManager.init, backend := oneDeviceLibrary, errors := [] }

/-- The library accepts every call. -/
def allOk : PaOutcome :=
  { initializeOk := true, openInputOk := true, openOutputOk := true, startInputOk := true,
    startOutputOk := true, errorText := "" }

/-- The two facts that every call of the manager keeps: a manager that is not connected has
an empty send queue, and each of the two timers is active exactly when the manager is
connected. -/
def LifeCycleInv (s : NetworkManager) : Prop :=
  (s.connected = false → s.sendQueue = []) ∧
  s.pingTimerActive = s.connected ∧ s.sendQueueTimerActive = s.connected

/-! ## Concrete states used in the examples -/

/-- A manager in server mode that serves the socket with handle `1`: connected, both
timers running, latency `7` measured earlier. -/
def servingManager : NetworkManager :=
  { NetworkManager.init with
    serverListening := true, clientSocket := some 1, pingTimerActive := true,
    sendQueueTimerActive := true, currentLatency := 7, isServer := true, connected := true }

/-- A running engine in raw mode, with the parameters the constructor sets. -/
def runningRawEngine : AudioManager :=
  { AudioManager.init with
    inputStream := some 1, outputStream := some 2, isInitialized := true, isRunning := true }

/-- A freshly made manager in client mode after the four events of a successful connection
with the socket of handle `1` to `127.0.0.1:5000`. -/
def connectedClient : NetworkManager :=
  socketConnected
    (handleSocketStateChange
      (handleSocketStateChange
        (connectToServer NetworkManager.init "127.0.0.1" 5000 1
          SocketState.UnconnectedState false).state
        SocketState.ConnectingState)
      SocketState.ConnectedState)

/-- Twelve distinct one-byte packets, `00` to `0B`. -/
def twelvePackets : List QByteArray :=
  [[0], [1], [2], [3], [4], [5], [6], [7], [8], [9], [10], [11]]

/-! ## Lemmas on the integer conversions and on the codec -/
theorem wrapInt32_of_lt (n : Nat) (h : n < 2147483648) : wrapInt32 (n : Int) = n := by
  unfold wrapInt32; omega

theorem wrapInt32_of_ge (n : Nat) (h1 : 2147483648 ≤ n) (h2 : n < 4294967296) :
    wrapInt32 (n : Int) = (n : Int) - 4294967296 := by
  unfold wrapInt32; omega

theorem toUInt32_natCast (n : Nat) : toUInt32 (n : Int) = n % 4294967296 := by
  unfold toUInt32; omega

theorem quint32_bytes_roundtrip (o : ByteOrder) (n : Nat) :
    ∃ b0 b1 b2 b3 : Byte, quint32Bytes o n = [b0, b1, b2, b3] ∧
      quint32OfBytes o b0 b1 b2 b3 = n % 4294967296 := by
  cases o
  · refine ⟨byteOfNat n, byteOfNat (n / 256), byteOfNat (n / 65536), byteOfNat (n / 16777216), rfl, ?_⟩
    simp only [quint32OfBytes, byteOfNat]
    omega
  · refine ⟨byteOfNat (n / 16777216), byteOfNat (n / 65536), byteOfNat (n / 256), byteOfNat n, rfl, ?_⟩
    simp only [quint32OfBytes, byteOfNat]
    omega

theorem mid_from_five (a : QByteArray) (len : Int) (h5 : 5 ≤ a.length) :
    mid a 5 len =
      (a.drop 5).take
        (if toUInt32 len > toUInt32 ((a.length : Int) - 5) then (a.length : Int) - 5 else len).toNat := by
  unfold mid
  have h1 : ¬ ((5 : Int) > (a.length : Int)) := by omega
  simp [h1]


theorem parsePacket_success (o : ByteOrder) (t b0 b1 b2 b3 : Byte) (tl : QByteArray)
    (hL : quint32OfBytes o b0 b1 b2 b3 < 2147483648)
    (hle : quint32OfBytes o b0 b1 b2 b3 ≤ tl.length) (hlen : tl.length < 4294967296) :
    parsePacket o (t :: b0 :: b1 :: b2 :: b3 :: tl) =
      some (t, tl.take (quint32OfBytes o b0 b1 b2 b3)) := by
  generalize hLdef : quint32OfBytes o b0 b1 b2 b3 = L at hL hle
  have hmid := mid_from_five (t :: b0 :: b1 :: b2 :: b3 :: tl) (wrapInt32 (L : Int))
    (by simp)
  simp only [parsePacket, hLdef]
  have hw : wrapInt32 (L : Int) = L := wrapInt32_of_lt L hL
  have hchk : ¬ (((t :: b0 :: b1 :: b2 :: b3 :: tl).length : Int)
      < wrapInt32 (((5 + L) % 4294967296 : Nat) : Int)) := by
    simp only [List.length_cons]
    unfold wrapInt32
    omega
  rw [if_neg hchk, hmid, hw]
  have hsel : ¬ (toUInt32 (L : Int) >
      toUInt32 (((t :: b0 :: b1 :: b2 :: b3 :: tl).length : Int) - 5)) := by
    simp only [List.length_cons]
    unfold toUInt32
    omega
  rw [if_neg hsel]
  simp

theorem parsePacket_short (o : ByteOrder) (t b0 b1 b2 b3 : Byte) (tl : QByteArray)
    (hL : quint32OfBytes o b0 b1 b2 b3 + 5 < 2147483648)
    (hlt : tl.length < quint32OfBytes o b0 b1 b2 b3) :
    parsePacket o (t :: b0 :: b1 :: b2 :: b3 :: tl) = none := by
  generalize hLdef : quint32OfBytes o b0 b1 b2 b3 = L at hL hlt
  simp only [parsePacket, hLdef]
  have hchk : (((t :: b0 :: b1 :: b2 :: b3 :: tl).length : Int)
      < wrapInt32 (((5 + L) % 4294967296 : Nat) : Int)) := by
    simp only [List.length_cons]
    unfold wrapInt32
    omega
  rw [if_pos hchk]

theorem createPacket_cons (o : ByteOrder) (t : Byte) (p : QByteArray) :
    ∃ b0 b1 b2 b3 : Byte, createPacket o t p = t :: b0 :: b1 :: b2 :: b3 :: p ∧
      quint32OfBytes o b0 b1 b2 b3 = p.length % 4294967296 := by
  obtain ⟨b0, b1, b2, b3, hb, hv⟩ := quint32_bytes_roundtrip o (p.length % 4294967296)
  refine ⟨b0, b1, b2, b3, ?_, ?_⟩
  · simp [createPacket, hb]
  · rw [hv]; omega

theorem parsePacket_createPacket_append (o : ByteOrder) (t : Byte) (p rest : QByteArray)
    (hp : p.length < 2147483648) (hlen : p.length + rest.length < 4294967296) :
    parsePacket o (createPacket o t p ++ rest) = some (t, p) := by
  obtain ⟨b0, b1, b2, b3, hc, hv⟩ := createPacket_cons o t p
  have hmod : p.length % 4294967296 = p.length := by omega
  rw [hc]
  have := parsePacket_success o t b0 b1 b2 b3 (p ++ rest) (by omega)
    (by rw [hv, hmod]; simp) (by simp; omega)
  simpa [hv, hmod] using this


theorem readQint64_writeQint64 (t : Int) (hlo : -9223372036854775808 ≤ t)
    (hhi : t < 9223372036854775808) : readQint64 (writeQint64 t) = t := by
  simp only [readQint64, writeQint64, byteOfNat, wrapInt64]
  omega

theorem parsePacket_none_of_length_lt (o : ByteOrder) (b : QByteArray) (h : b.length < 5) :
    parsePacket o b = none := by
  match b with
  | [] => rfl
  | [_] => rfl
  | [_, _] => rfl
  | [_, _, _] => rfl
  | [_, _, _, _] => rfl
  | _ :: _ :: _ :: _ :: _ :: _ => simp only [List.length_cons] at h; omega

theorem parsePacket_payload_length (o : ByteOrder) (b : QByteArray) (t : Byte)
    (d : QByteArray) (h : parsePacket o b = some (t, d)) : d.length + 5 ≤ b.length := by
  match b, h with
  | [], h => simp [parsePacket] at h
  | [_], h => simp [parsePacket] at h
  | [_, _], h => simp [parsePacket] at h
  | [_, _, _], h => simp [parsePacket] at h
  | [_, _, _, _], h => simp [parsePacket] at h
  | t0 :: b0 :: b1 :: b2 :: b3 :: tl, h =>
    simp only [parsePacket] at h
    split at h
    · simp at h
    · rw [mid_from_five _ _ (by simp)] at h
      simp only [Option.some.injEq, Prod.mk.injEq] at h
      rw [← h.2]
      simp only [List.length_take, List.length_drop, List.length_cons]
      omega

theorem readData_eq_foldl_dispatched (o : ByteOrder) (s : NetworkManager) (now : Int)
    (data : QByteArray) :
    readData o s now data =
      (readDataDispatched o s data).foldl (fun st pk => dispatchPacket o st now pk.1 pk.2) s := by
  unfold readData readDataDispatched
  cases s.clientSocket with
  | none => rfl
  | some sock =>
    cases parsePacket o data with
    | none => rfl
    | some pk => rfl

theorem encodeAll_cons (o : ByteOrder) (t : Byte) (p : QByteArray)
    (rest : List (Byte × QByteArray)) :
    encodeAll o ((t, p) :: rest) = createPacket o t p ++ encodeAll o rest := by
  simp [encodeAll]

theorem createPacket_length (o : ByteOrder) (t : Byte) (p : QByteArray) :
    (createPacket o t p).length = 5 + p.length := by
  obtain ⟨b0, b1, b2, b3, hc, _⟩ := createPacket_cons o t p
  rw [hc]; simp only [List.length_cons]; omega

theorem parsePacket_createPacket_take (o : ByteOrder) (t : Byte) (p : QByteArray) (k : Nat)
    (hk : k < (createPacket o t p).length)
    (hlen : (createPacket o t p).length < 2147483648) :
    parsePacket o ((createPacket o t p).take k) = none := by
  obtain ⟨b0, b1, b2, b3, hc, hv⟩ := createPacket_cons o t p
  rw [hc] at hk hlen ⊢
  simp only [List.length_cons] at hk hlen
  by_cases h5 : k < 5
  · apply parsePacket_none_of_length_lt
    simp only [List.length_take, List.length_cons]
    omega
  · obtain ⟨j, rfl⟩ : ∃ j, k = j + 5 := ⟨k - 5, by omega⟩
    simp only [List.take_succ_cons]
    apply parsePacket_short
    · rw [hv]; omega
    · rw [hv, List.length_take]; omega

/-! ## Lemmas on the playback slot -/

theorem processIncomingAudio_raw (s : AudioManager) (F : QByteArray)
    (hrun : s.isRunning = true) (hraw : s.transmissionMode = TransmissionMode.Raw) :
    processIncomingAudio s F = { s with outputBuffer := F } := by
  simp [processIncomingAudio, hrun, hraw]

theorem outputCallback_enough (s : AudioManager) (f : Nat)
    (h : bytesToCopy s f ≤ s.outputBuffer.length) :
    outputCallback s true f = (s, some (s.outputBuffer.take (bytesToCopy s f))) := by
  simp [outputCallback, h]

theorem playbackRun_enough (s : AudioManager) (periods : List Nat)
    (h : ∀ f ∈ periods, bytesToCopy s f ≤ s.outputBuffer.length) :
    playbackRun s periods =
      (s, periods.map (fun f => some (s.outputBuffer.take (bytesToCopy s f)))) := by
  induction periods with
  | nil => rfl
  | cons f rest ih =>
    have hf := outputCallback_enough s f (h f (by simp))
    have hrest := ih (fun g hg => h g (by simp [hg]))
    simp [playbackRun, hf, hrest]

/-! ## Properties of the packet codec and of the read path -/

/-- C1. Round trip of the packet codec: for every byte order of the host, every type byte
`t` and every payload `p` of fewer than `2^31` bytes, `parsePacket (createPacket t p)`
succeeds and yields exactly the type `t` and the payload `p`. -/
theorem parsePacket_createPacket_roundtrip (o : ByteOrder) (t : Byte) (p : QByteArray)
    (hp : p.length < 2147483648) :
    parsePacket o (createPacket o t p) = some (t, p) := by
  have h := parsePacket_createPacket_append o t p [] hp (by simp; omega)
  simpa using h

/-- C1, witness: the round trip at the audio frame with payload `01 02 03`. -/
theorem parsePacket_createPacket_roundtrip_witness :
    ([1, 2, 3] : QByteArray).length < 2147483648 ∧
      parsePacket ByteOrder.little (createPacket ByteOrder.little 65 [1, 2, 3])
        = some (65, [1, 2, 3]) :=
  ⟨by decide, parsePacket_createPacket_roundtrip ByteOrder.little 65 [1, 2, 3] (by decide)⟩

/-- C2, at the failing input. The five-byte buffer `41 FF FF FF FF` declares the length
`2^32 - 1` and holds no payload byte at all, yet `parsePacket` returns `true`, with type 'A'
and the empty payload, on a host of either byte order: `5 + size` wraps to `4` in `quint32`,
so the size test does not fail. The same happens for a declared length of `2^31 - 5`, where
`static_cast<int>(5 + size)` is negative. -/
theorem parsePacket_accepts_oversized_length :
    parsePacket ByteOrder.little [65, 255, 255, 255, 255] = some (65, []) ∧
    parsePacket ByteOrder.big [65, 255, 255, 255, 255] = some (65, []) ∧
    parsePacket ByteOrder.little [65, 251, 255, 255, 127, 1, 2] = some (65, [1, 2]) := by
  decide

/-- C3, counterexample. Two audio frames, with payloads `01` and `02`, delivered by one read
event to a connected manager: `readData` dispatches the first frame only, so one packet and
not two, and emits a single `audioDataReceived`. -/
theorem readData_two_frames_dispatches_one :
    readDataDispatched ByteOrder.little servingManager
        (encodeAll ByteOrder.little [(65, [1]), (65, [2])]) = [(65, [1])] ∧
    readDataDispatched ByteOrder.little servingManager
        (encodeAll ByteOrder.little [(65, [1]), (65, [2])]) ≠ [(65, [1]), (65, [2])] ∧
    (readData ByteOrder.little servingManager 0
        (encodeAll ByteOrder.little [(65, [1]), (65, [2])])).log
      = [NetEvent.audioDataReceived [1]] := by
  decide

/-- C3, amended. For every non-empty list of (type, payload) pairs whose concatenated
`createPacket` encodings form a byte array (fewer than `2^31` bytes), when one read event
delivers that concatenation to a manager with a client socket, `readData` dispatches exactly
one packet, the first pair with its type and payload: the call is the handler call for the
first pair, and the frames after the first are dropped. -/
theorem readData_concatenation_dispatches_first (o : ByteOrder) (s : NetworkManager)
    (now : Int) (t : Byte) (p : QByteArray) (rest : List (Byte × QByteArray))
    (hsock : s.clientSocket.isSome = true)
    (hlen : (encodeAll o ((t, p) :: rest)).length < 2147483648) :
    readDataDispatched o s (encodeAll o ((t, p) :: rest)) = [(t, p)] ∧
    readData o s now (encodeAll o ((t, p) :: rest)) = dispatchPacket o s now t p := by
  rw [encodeAll_cons] at hlen ⊢
  have hl : (createPacket o t p).length = 5 + p.length := createPacket_length o t p
  rw [List.length_append, hl] at hlen
  have hparse : parsePacket o (createPacket o t p ++ encodeAll o rest) = some (t, p) :=
    parsePacket_createPacket_append o t p (encodeAll o rest) (by omega) (by omega)
  obtain ⟨sock, hs⟩ := Option.isSome_iff_exists.mp hsock
  constructor
  · simp [readDataDispatched, hs, hparse]
  · simp [readData, hs, hparse]

/-- C3, witness: three frames in one read event, the first one is dispatched. -/
theorem readData_concatenation_dispatches_first_witness :
    servingManager.clientSocket.isSome = true ∧
    (encodeAll ByteOrder.little ((65, [1]) :: [(80, [2]), (65, [3])])).length < 2147483648 ∧
    readDataDispatched ByteOrder.little servingManager
        (encodeAll ByteOrder.little ((65, [1]) :: [(80, [2]), (65, [3])])) = [(65, [1])] ∧
    readData ByteOrder.little servingManager 0
        (encodeAll ByteOrder.little ((65, [1]) :: [(80, [2]), (65, [3])]))
      = dispatchPacket ByteOrder.little servingManager 0 65 [1] :=
  ⟨by decide, by decide,
    readData_concatenation_dispatches_first ByteOrder.little servingManager 0 65 [1]
      [(80, [2]), (65, [3])] (by decide) (by decide)⟩

/-- C4, counterexample. The six-byte frame of type 'A' with payload `07`, split after its
third byte and delivered by two read events to a connected manager: nothing is dispatched
after the first event, and nothing after the second one either; the manager ends in the
state it started in, with no `audioDataReceived` emitted, so the frame is lost rather than
dispatched once. -/
theorem readData_split_frame_lost :
    readData ByteOrder.little servingManager 0
        ((createPacket ByteOrder.little 65 [7]).take 3) = servingManager ∧
    readDataDispatched ByteOrder.little servingManager
        ((createPacket ByteOrder.little 65 [7]).drop 3) = [] ∧
    readData ByteOrder.little
        (readData ByteOrder.little servingManager 0
          ((createPacket ByteOrder.little 65 [7]).take 3)) 0
        ((createPacket ByteOrder.little 65 [7]).drop 3) = servingManager := by
  decide

/-- C4, amended. For every frame `f = createPacket t p` that is a byte array (fewer than
`2^31` bytes) and every split point `0 < k < |f|`, when the first `k` bytes of `f` arrive
in one read event and the remaining bytes in the next, the read path keeps nothing of the
first part: the first event dispatches nothing and leaves the manager as it was, and the
second event, which parses the remaining bytes on their own, does not dispatch `(t, p)`. -/
theorem readData_split_frame_not_reassembled (o : ByteOrder) (s : NetworkManager)
    (now : Int) (t : Byte) (p : QByteArray) (k : Nat)
    (hk0 : 0 < k) (hk : k < (createPacket o t p).length)
    (hlen : (createPacket o t p).length < 2147483648) :
    readDataDispatched o s ((createPacket o t p).take k) = [] ∧
    readData o s now ((createPacket o t p).take k) = s ∧
    (t, p) ∉ readDataDispatched o (readData o s now ((createPacket o t p).take k))
      ((createPacket o t p).drop k) := by
  have hnone := parsePacket_createPacket_take o t p k hk hlen
  have h1 : readDataDispatched o s ((createPacket o t p).take k) = [] := by
    unfold readDataDispatched
    cases s.clientSocket <;> simp [hnone]
  have h2 : readData o s now ((createPacket o t p).take k) = s := by
    unfold readData
    cases s.clientSocket <;> simp [hnone]
  refine ⟨h1, h2, ?_⟩
  rw [h2]
  intro hmem
  unfold readDataDispatched at hmem
  cases hs : s.clientSocket with
  | none => simp [hs] at hmem
  | some sock =>
    cases hp : parsePacket o ((createPacket o t p).drop k) with
    | none => simp [hs, hp] at hmem
    | some pk =>
      simp only [hs, hp, List.mem_singleton] at hmem
      rw [← hmem] at hp
      have hl := parsePacket_payload_length o _ t p hp
      rw [List.length_drop, createPacket_length] at hl
      omega

/-- C4, witness: the six-byte audio frame split after its third byte. -/
theorem readData_split_frame_not_reassembled_witness :
    0 < 3 ∧ 3 < (createPacket ByteOrder.little 65 [7]).length ∧
    (createPacket ByteOrder.little 65 [7]).length < 2147483648 ∧
    readDataDispatched ByteOrder.little servingManager
        ((createPacket ByteOrder.little 65 [7]).take 3) = [] ∧
    readData ByteOrder.little servingManager 0
        ((createPacket ByteOrder.little 65 [7]).take 3) = servingManager ∧
    (65, [7]) ∉ readDataDispatched ByteOrder.little
        (readData ByteOrder.little servingManager 0
          ((createPacket ByteOrder.little 65 [7]).take 3))
        ((createPacket ByteOrder.little 65 [7]).drop 3) :=
  ⟨by decide, by decide, by decide,
    readData_split_frame_not_reassembled ByteOrder.little servingManager 0 65 [7] 3
      (by decide) (by decide) (by decide)⟩

/-- C5, counterexample. On a big-endian host `createPacket` puts the four bytes of the
length most significant first: the frame of type 'A' with the one-byte payload `09` is
`41 00 00 00 01 09`, not the little-endian `41 01 00 00 00 09`. -/
theorem createPacket_big_endian_host :
    createPacket ByteOrder.big 65 [9] = [65, 0, 0, 0, 1, 9] ∧
    createPacket ByteOrder.big 65 [9] ≠ [65, 1, 0, 0, 0, 9] := by
  decide

/-- C5, amended. For every type byte `t` and payload `p`, `createPacket t p` is exactly the
byte `t`, followed by the 4 bytes of `|p|` as an unsigned 32-bit integer in the byte order
of the host (least significant byte first on a little-endian host, most significant byte
first on a big-endian one), followed by the bytes of `p` unchanged; its total length is
`5 + |p|`. -/
theorem createPacket_layout (o : ByteOrder) (t : Byte) (p : QByteArray) :
    (createPacket o t p).head? = some t ∧
    ((createPacket o t p).drop 1).take 4 =
      (match o with
        | ByteOrder.little =>
          [byteOfNat p.length, byteOfNat (p.length / 256), byteOfNat (p.length / 65536),
            byteOfNat (p.length / 16777216)]
        | ByteOrder.big =>
          [byteOfNat (p.length / 16777216), byteOfNat (p.length / 65536),
            byteOfNat (p.length / 256), byteOfNat p.length]) ∧
    (createPacket o t p).drop 5 = p ∧
    (createPacket o t p).length = 5 + p.length := by
  have hb : ∀ n : Nat, byteOfNat (n % 4294967296) = byteOfNat n := by
    intro n; simp only [byteOfNat, Fin.mk.injEq]; omega
  have hb1 : ∀ n : Nat, byteOfNat (n % 4294967296 / 256) = byteOfNat (n / 256) := by
    intro n; simp only [byteOfNat, Fin.mk.injEq]; omega
  have hb2 : ∀ n : Nat, byteOfNat (n % 4294967296 / 65536) = byteOfNat (n / 65536) := by
    intro n; simp only [byteOfNat, Fin.mk.injEq]; omega
  have hb3 : ∀ n : Nat, byteOfNat (n % 4294967296 / 16777216) = byteOfNat (n / 16777216) := by
    intro n; simp only [byteOfNat, Fin.mk.injEq]; omega
  refine ⟨?_, ?_, ?_, createPacket_length o t p⟩
  · simp [createPacket]
  · cases o <;> simp [createPacket, quint32Bytes, hb, hb1, hb2, hb3]
  · cases o <;> simp [createPacket, quint32Bytes]

/-! ## Properties of the latency probe -/

/-- C6, counterexample. A ProbeReply that carries `t0 = 1000` and is handled at local time
`t1 = 1000` reports nothing: the manager, whose stored latency was `7`, is unchanged, so no
`latencyChanged` is emitted and `getLatency` stays `7` instead of `t1 - t0 = 0`. -/
theorem handlePongPacket_equal_timestamps_silent :
    handlePongPacket servingManager 1000 (writeQint64 1000) = servingManager ∧
    getLatency (handlePongPacket servingManager 1000 (writeQint64 1000)) = 7 ∧
    (handlePongPacket servingManager 1000 (writeQint64 1000)).log = [] := by
  decide

/-- C6, amended. For every pair of 64-bit millisecond timestamps `t0` and `t1` with
`t1 > t0` and `t1 - t0 < 2^31`, handling at local time `t1` a ProbeReply whose payload
carries `t0` reports a latency equal to `t1 - t0` exactly: one `latencyChanged (t1 - t0)`
is emitted and `getLatency` returns `t1 - t0` afterwards; in the case `t1 = t0` no latency
is reported and the manager is unchanged. -/
theorem handlePongPacket_reports_elapsed (s : NetworkManager) (t0 t1 : Int)
    (h0lo : -9223372036854775808 ≤ t0) (h0hi : t0 < 9223372036854775808)
    (hle : t0 ≤ t1) (hfit : t1 - t0 < 2147483648) :
    (t0 < t1 →
      handlePongPacket s t1 (writeQint64 t0) =
        { s with currentLatency := t1 - t0,
                 log := s.log ++ [NetEvent.latencyChanged (t1 - t0)] } ∧
      getLatency (handlePongPacket s t1 (writeQint64 t0)) = t1 - t0) ∧
    (t0 = t1 → handlePongPacket s t1 (writeQint64 t0) = s) := by
  have hr : readQint64 (writeQint64 t0) = t0 := readQint64_writeQint64 t0 h0lo h0hi
  have hw : wrapInt32 (wrapInt64 (t1 - t0)) = t1 - t0 := by
    unfold wrapInt32 wrapInt64; omega
  constructor
  · intro hlt
    have hpos : t1 - t0 > 0 := by omega
    simp [handlePongPacket, hr, hw, hpos, getLatency]
  · intro heq
    have hnpos : ¬ (t1 - t0 > 0) := by omega
    simp [handlePongPacket, hr, hw, hnpos]

/-- C6, witness: a reply sent at 1700000000000 and handled 42 ms later. -/
theorem handlePongPacket_reports_elapsed_witness :
    (-9223372036854775808 : Int) ≤ 1700000000000 ∧ (1700000000000 : Int) < 9223372036854775808 ∧
    (1700000000000 : Int) ≤ 1700000000042 ∧ (1700000000042 : Int) - 1700000000000 < 2147483648 ∧
    getLatency (handlePongPacket servingManager 1700000000042 (writeQint64 1700000000000))
      = 1700000000042 - 1700000000000 :=
  ⟨by decide, by decide, by decide, by decide,
    ((handlePongPacket_reports_elapsed servingManager 1700000000000 1700000000042
      (by decide) (by decide) (by decide) (by decide)).1
        (by decide)).2⟩

/-- C7, at the failing input. A ProbeReply that carries `t0 = 1704294967295` and is
handled at the earlier local time `t1 = 1700000000000` (so `t1 - t0 = -(2^32 - 1)`) does
report a latency: `static_cast<int>` keeps the low 32 bits of the difference, which are
`1`, so `latencyChanged 1` is emitted and the stored latency changes from `7` to `1`. -/
theorem handlePongPacket_reports_wrapped_negative :
    (1700000000000 : Int) < 1704294967295 ∧
    handlePongPacket servingManager 1700000000000 (writeQint64 1704294967295) =
      { servingManager with currentLatency := 1, log := [NetEvent.latencyChanged 1] } := by
  decide

/-- C8. For every payload `p` (a byte array, so fewer than `2^31` bytes), handling a
received ProbeRequest with payload `p` writes to the client socket exactly one packet, equal
to `createPacket 'O' p`: both the handler `handlePingPacket` and the read path `readData`
on the frame `createPacket 'P' p` append that single write to the log and change nothing
else; `parsePacket` on the written bytes recovers the type 'O' and the payload `p`. -/
theorem handlePingPacket_echoes_payload (o : ByteOrder) (s : NetworkManager) (now : Int)
    (sock : Nat) (p : QByteArray)
    (hsock : s.clientSocket = some sock) (hp : p.length < 2147483648) :
    handlePingPacket o s p =
      { s with log := s.log ++ [NetEvent.write sock (createPacket o PACKET_TYPE_PONG p)] } ∧
    readData o s now (createPacket o PACKET_TYPE_PING p) =
      { s with log := s.log ++ [NetEvent.write sock (createPacket o PACKET_TYPE_PONG p)] } ∧
    parsePacket o (createPacket o PACKET_TYPE_PONG p) = some (PACKET_TYPE_PONG, p) := by
  have hparse : ∀ t : Byte, parsePacket o (createPacket o t p) = some (t, p) := by
    intro t
    have h := parsePacket_createPacket_append o t p [] hp (by simp; omega)
    simpa using h
  have hne : PACKET_TYPE_PING ≠ PACKET_TYPE_AUDIO := by decide
  refine ⟨?_, ?_, hparse PACKET_TYPE_PONG⟩
  · simp [handlePingPacket, hsock]
  · simp [readData, hsock, hparse PACKET_TYPE_PING, dispatchPacket, hne, handlePingPacket]

/-- C8, witness: a ProbeRequest that carries the timestamp 1700000000000. -/
theorem handlePingPacket_echoes_payload_witness :
    servingManager.clientSocket = some 1 ∧ (writeQint64 1700000000000).length < 2147483648 ∧
    readData ByteOrder.little servingManager 0
        (createPacket ByteOrder.little PACKET_TYPE_PING (writeQint64 1700000000000)) =
      { servingManager with
        log := servingManager.log ++ [NetEvent.write 1
          (createPacket ByteOrder.little PACKET_TYPE_PONG (writeQint64 1700000000000))] } :=
  ⟨by decide, by decide,
    (handlePingPacket_echoes_payload ByteOrder.little servingManager 0 1
      (writeQint64 1700000000000) (by decide) (by decide)).2.1⟩

/-! ## Properties of the playback slot -/

/-- C9. Frame Buffer Bridge as a latest-value cell: for a running engine in Raw mode,
whatever the slot held before, after `processIncomingAudio F` the slot holds `F`; every
playback callback that requests `n <= |F|` bytes stores the first `n` bytes of `F` and
leaves the engine, slot included, unchanged; so a run of any number of such callbacks with
no call in between returns, for each of them, the same first bytes of `F`. -/
theorem outputCallback_latest_value_cell (s : AudioManager) (F : QByteArray)
    (periods : List Nat) (f : Nat)
    (hrun : s.isRunning = true) (hraw : s.transmissionMode = TransmissionMode.Raw)
    (hf : bytesToCopy s f ≤ F.length)
    (hall : ∀ g ∈ periods, bytesToCopy s g ≤ F.length) :
    (processIncomingAudio s F).outputBuffer = F ∧
    outputCallback (processIncomingAudio s F) true f =
      (processIncomingAudio s F, some (F.take (bytesToCopy s f))) ∧
    playbackRun (processIncomingAudio s F) periods =
      (processIncomingAudio s F, periods.map (fun g => some (F.take (bytesToCopy s g)))) := by
  rw [processIncomingAudio_raw s F hrun hraw]
  refine ⟨rfl, ?_, ?_⟩
  · exact outputCallback_enough { s with outputBuffer := F } f hf
  · exact playbackRun_enough { s with outputBuffer := F } periods hall

/-- C9, witness: a nine-byte frame consumed by three successive callbacks. -/
theorem outputCallback_latest_value_cell_witness :
    runningRawEngine.isRunning = true ∧
    runningRawEngine.transmissionMode = TransmissionMode.Raw ∧
    bytesToCopy runningRawEngine 1 ≤ ([1, 2, 3, 4, 5, 6, 7, 8, 9] : QByteArray).length ∧
    playbackRun (processIncomingAudio runningRawEngine [1, 2, 3, 4, 5, 6, 7, 8, 9]) [1, 1, 0] =
      (processIncomingAudio runningRawEngine [1, 2, 3, 4, 5, 6, 7, 8, 9],
        [1, 1, 0].map (fun g =>
          some (([1, 2, 3, 4, 5, 6, 7, 8, 9] : QByteArray).take (bytesToCopy runningRawEngine g)))) :=
  ⟨by decide, by decide, by decide,
    (outputCallback_latest_value_cell runningRawEngine [1, 2, 3, 4, 5, 6, 7, 8, 9] [1, 1, 0] 1
      (by decide) (by decide) (by decide) (by decide)).2.2⟩

/-- C10, counterexample. With the one-byte frame `01` in the slot and a period of one
stereo float frame (8 bytes), the playback callback stores eight zero bytes: the byte of
the slot is not output, so the result is not `01` followed by seven zero bytes. -/
theorem outputCallback_short_slot_all_silence :
    (processIncomingAudio runningRawEngine [1]).outputBuffer = [1] ∧
    bytesToCopy (processIncomingAudio runningRawEngine [1]) 1 = 8 ∧
    (outputCallback (processIncomingAudio runningRawEngine [1]) true 1).2
      = some [0, 0, 0, 0, 0, 0, 0, 0] ∧
    (outputCallback (processIncomingAudio runningRawEngine [1]) true 1).2
      ≠ some ([1] ++ List.replicate 7 0) := by
  decide

/-- C10, amended. For every slot content `F` and every requested period of `n` bytes with
`|F| < n` (including the empty slot), the playback callback outputs `n` zero bytes and
leaves the engine unchanged: the whole period is silence, and no byte of `F` is output. -/
theorem outputCallback_short_slot_silence (s : AudioManager) (f : Nat)
    (h : s.outputBuffer.length < bytesToCopy s f) :
    outputCallback s true f = (s, some (List.replicate (bytesToCopy s f) 0)) := by
  have hn : ¬ (bytesToCopy s f ≤ s.outputBuffer.length) := by omega
  simp [outputCallback, hn]

/-- C10, witness: a three-byte slot and a period of eight bytes. -/
theorem outputCallback_short_slot_silence_witness :
    ({ runningRawEngine with outputBuffer := [1, 2, 3] } : AudioManager).outputBuffer.length
      < bytesToCopy { runningRawEngine with outputBuffer := [1, 2, 3] } 1 ∧
    outputCallback { runningRawEngine with outputBuffer := [1, 2, 3] } true 1 =
      ({ runningRawEngine with outputBuffer := [1, 2, 3] },
        some (List.replicate (bytesToCopy { runningRawEngine with outputBuffer := [1, 2, 3] } 1) 0)) :=
  ⟨by decide, outputCallback_short_slot_silence { runningRawEngine with outputBuffer := [1, 2, 3] } 1
    (by decide)⟩

/-- C11, counterexample. A running engine in Raw mode, the one-period frame `01 .. 08` in
the slot and a period of one stereo float frame (8 bytes): the first playback callback
stores the frame, and the second one, with no replace in between, stores the same eight
bytes again, not eight zero bytes. -/
theorem outputCallback_second_period_repeats_frame :
    (playbackRun (processIncomingAudio runningRawEngine [1, 2, 3, 4, 5, 6, 7, 8]) [1, 1]).2
      = [some [1, 2, 3, 4, 5, 6, 7, 8], some [1, 2, 3, 4, 5, 6, 7, 8]] ∧
    (outputCallback
        (outputCallback (processIncomingAudio runningRawEngine [1, 2, 3, 4, 5, 6, 7, 8])
          true 1).1 true 1).2
      ≠ some (List.replicate 8 0) := by
  decide

/-- C11, amended. When playback runs faster than delivery the stale frame is repeated:
for a running engine in Raw mode, after the slot is replaced with a frame `F` of exactly
one period (`n` bytes) and the playback callback has consumed it once, a second playback
callback with no intervening replace outputs the same `n` bytes of `F` again, and the slot
still holds `F`. -/
theorem outputCallback_repeats_consumed_frame (s : AudioManager) (F : QByteArray) (f : Nat)
    (hrun : s.isRunning = true) (hraw : s.transmissionMode = TransmissionMode.Raw)
    (hlen : F.length = bytesToCopy s f) :
    playbackRun (processIncomingAudio s F) [f, f] =
      (processIncomingAudio s F, [some F, some F]) ∧
    (outputCallback (outputCallback (processIncomingAudio s F) true f).1 true f).2 = some F ∧
    (outputCallback (outputCallback (processIncomingAudio s F) true f).1 true f).1.outputBuffer
      = F := by
  rw [processIncomingAudio_raw s F hrun hraw]
  have hle : bytesToCopy { s with outputBuffer := F } f
      ≤ ({ s with outputBuffer := F } : AudioManager).outputBuffer.length := by
    show bytesToCopy s f ≤ F.length
    omega
  have h1 := outputCallback_enough { s with outputBuffer := F } f hle
  have htake : F.take (bytesToCopy s f) = F := by
    rw [← hlen]; exact List.take_length F
  have h1b : outputCallback { s with outputBuffer := F } true f
      = ({ s with outputBuffer := F }, some F) := by
    rw [h1]
    show ({ s with outputBuffer := F }, some (F.take (bytesToCopy s f))) = _
    rw [htake]
  refine ⟨?_, ?_, ?_⟩
  · simp [playbackRun, h1b]
  · simp [h1b]
  · simp [h1b]

/-- C11, witness: the eight-byte frame `01 .. 08` and a period of one stereo float frame. -/
theorem outputCallback_repeats_consumed_frame_witness :
    runningRawEngine.isRunning = true ∧
    runningRawEngine.transmissionMode = TransmissionMode.Raw ∧
    ([1, 2, 3, 4, 5, 6, 7, 8] : QByteArray).length = bytesToCopy runningRawEngine 1 ∧
    playbackRun (processIncomingAudio runningRawEngine [1, 2, 3, 4, 5, 6, 7, 8]) [1, 1] =
      (processIncomingAudio runningRawEngine [1, 2, 3, 4, 5, 6, 7, 8],
        [some [1, 2, 3, 4, 5, 6, 7, 8], some [1, 2, 3, 4, 5, 6, 7, 8]]) :=
  ⟨by decide, by decide, by decide,
    (outputCallback_repeats_consumed_frame runningRawEngine [1, 2, 3, 4, 5, 6, 7, 8] 1
      (by decide) (by decide) (by decide)).1⟩

/-! ## Lemmas on the send queue and on the connection life cycle -/

theorem drainLoop_eq (sock : Nat) (k : Nat) (s : NetworkManager) :
    drainLoop sock k s =
      { s with
        sendQueue := s.sendQueue.drop k,
        log := s.log ++ (s.sendQueue.take k).map (NetEvent.write sock) } := by
  induction k generalizing s with
  | zero => simp [drainLoop]
  | succ k ih =>
    cases hq : s.sendQueue with
    | nil => cases s; simp_all [drainLoop]
    | cons packet rest =>
      rw [drainLoop, hq]
      simp only
      rw [ih]
      simp

theorem processSendQueue_eq (s : NetworkManager) (sock : Nat)
    (hconn : s.connected = true) (hsock : s.clientSocket = some sock) :
    processSendQueue s =
      { s with
        sendQueue := s.sendQueue.drop (min 10 s.sendQueue.length),
        log := s.log ++
          (s.sendQueue.take (min 10 s.sendQueue.length)).map (NetEvent.write sock) } := by
  simp [processSendQueue, hconn, hsock, drainLoop_eq]

theorem writtenPackets_append_writes (log : List NetEvent) (sock : Nat) (W : List QByteArray) :
    writtenPackets (log ++ W.map (NetEvent.write sock)) = writtenPackets log ++ W := by
  simp only [writtenPackets, List.filterMap_append, List.filterMap_map]
  congr 1
  induction W with
  | nil => rfl
  | cons a l ih => simp [List.filterMap_cons, ih]

theorem sendAudioData_connected (o : ByteOrder) (s : NetworkManager) (sock : Nat)
    (data : QByteArray) (hconn : s.connected = true) (hsock : s.clientSocket = some sock) :
    sendAudioData o s data =
      ({ s with sendQueue := s.sendQueue ++ [createPacket o PACKET_TYPE_AUDIO data] }, true) := by
  simp [sendAudioData, hconn, hsock]

theorem sessionRun_fifo (o : ByteOrder) (sock : Nat) (steps : List SessionStep) :
    ∀ s : NetworkManager, s.connected = true → s.clientSocket = some sock →
      ∃ W : List QByteArray,
        (sessionRun o s steps).log = s.log ++ W.map (NetEvent.write sock) ∧
        W ++ (sessionRun o s steps).sendQueue = s.sendQueue ++ enqueuedPackets o steps := by
  induction steps with
  | nil =>
    intro s _ _
    exact ⟨[], by simp [sessionRun], by simp [sessionRun, enqueuedPackets]⟩
  | cons st rest ih =>
    intro s hconn hsock
    cases st with
    | send data =>
      have hs := sendAudioData_connected o s sock data hconn hsock
      obtain ⟨W, hlog, hq⟩ := ih (sendAudioData o s data).1 (by rw [hs]; exact hconn)
        (by rw [hs]; exact hsock)
      refine ⟨W, ?_, ?_⟩
      · rw [sessionRun, hlog, hs]
      · rw [sessionRun, hq, hs]
        simp [enqueuedPackets]
    | drainTick =>
      have hs := processSendQueue_eq s sock hconn hsock
      obtain ⟨W, hlog, hq⟩ := ih (processSendQueue s) (by rw [hs]; exact hconn)
        (by rw [hs]; exact hsock)
      refine ⟨s.sendQueue.take (min 10 s.sendQueue.length) ++ W, ?_, ?_⟩
      · rw [sessionRun, hlog, hs]
        simp
      · rw [sessionRun, List.append_assoc, hq, hs]
        simp only [enqueuedPackets, List.filterMap_cons]
        rw [← List.append_assoc, List.take_append_drop]

theorem handleDisconnect_eq_untilLock (s : NetworkManager) :
    handleDisconnect s = { handleDisconnectUntilLock s with sendQueue := [] } := by
  unfold handleDisconnect handleDisconnectUntilLock
  cases s.clientSocket <;> rfl

theorem lifeCycleInv_disconnect (s : NetworkManager) (socketState : SocketState)
    (pendingWrite : Bool) : LifeCycleInv (disconnect s socketState pendingWrite).state := by
  unfold LifeCycleInv disconnect
  cases hk : s.clientSocket <;> cases hc : s.connected <;> cases hv : s.isServer <;>
    cases socketState <;> cases pendingWrite <;>
    simp [hk, hc, hv, disconnectFinish, disconnectFromHostSignals, nestedSlots, nestedSlot,
      handleSocketStateChange, handleDisconnectUntilLock]

theorem lifeCycleInv_handleDisconnect (s : NetworkManager) :
    LifeCycleInv (handleDisconnect s) := by
  unfold LifeCycleInv handleDisconnect
  cases s.clientSocket <;> simp

theorem drainLoop_connected (sock : Nat) (k : Nat) (s : NetworkManager) :
    (drainLoop sock k s).connected = s.connected ∧
    (drainLoop sock k s).pingTimerActive = s.pingTimerActive ∧
    (drainLoop sock k s).sendQueueTimerActive = s.sendQueueTimerActive := by
  rw [drainLoop_eq]
  simp

theorem lifeCycleInv_netCall (o : ByteOrder) (s : NetworkManager) (a : NetAction)
    (h : LifeCycleInv s) : LifeCycleInv (netCall o s a).state := by
  cases a with
  | startServer port listenOk errorString socketState pendingWrite =>
    have hd := lifeCycleInv_disconnect s socketState pendingWrite
    unfold LifeCycleInv at hd ⊢
    simp only [netCall, startServer]
    cases hr : (disconnect s socketState pendingWrite).result with
    | none => simpa using hd
    | some u => cases listenOk <;> simpa using hd
  | connectToServer address port socket socketState pendingWrite =>
    have hd := lifeCycleInv_disconnect s socketState pendingWrite
    unfold LifeCycleInv at hd ⊢
    simp only [netCall, connectToServer]
    cases hr : (disconnect s socketState pendingWrite).result with
    | none => simpa using hd
    | some u => simpa using hd
  | disconnect socketState pendingWrite => exact lifeCycleInv_disconnect s socketState pendingWrite
  | sendAudioData data =>
    unfold LifeCycleInv at h ⊢
    obtain ⟨h1, h2, h3⟩ := h
    simp only [netCall, sendAudioData]
    cases hc : s.connected <;> cases hk : s.clientSocket <;> simp_all
  | newConnection pending peerAddress =>
    unfold LifeCycleInv at h ⊢
    simp only [netCall, handleNewConnection]
    cases hk : s.clientSocket <;> simp_all
  | socketConnected =>
    unfold LifeCycleInv
    simp [netCall, socketConnected]
  | socketDisconnected => exact lifeCycleInv_handleDisconnect s
  | socketError errorString =>
    simp only [netCall, handleSocketError]
    cases hk : s.clientSocket with
    | none => simpa using h
    | some sock =>
      simp only
      split
      · exact lifeCycleInv_handleDisconnect _
      · unfold LifeCycleInv at h ⊢
        simpa using h
  | socketStateChanged state =>
    simp only [netCall, handleSocketStateChange]
    cases hk : s.clientSocket with
    | none => simpa using h
    | some sock =>
      cases state <;> simp only
      all_goals first
        | (split
           · exact lifeCycleInv_handleDisconnect _
           · exact h)
        | exact h
  | readyRead now data =>
    unfold LifeCycleInv at h ⊢
    simp only [netCall, readData]
    cases hk : s.clientSocket with
    | none => simpa using h
    | some sock =>
      simp only
      cases hp : parsePacket o data with
      | none => simpa using h
      | some pk =>
        simp only [dispatchPacket, handleAudioPacket, handlePingPacket, handlePongPacket, hk]
        split
        · simpa using h
        · split
          · simpa using h
          · split
            · split
              · simpa using h
              · simpa using h
            · simpa using h
  | pingTimeout now =>
    unfold LifeCycleInv at h ⊢
    simp only [netCall, sendPing]
    cases hk : s.clientSocket <;> cases hc : s.connected <;> cases ht : s.pingTimerActive <;>
      simp_all
  | sendQueueTimeout =>
    simp only [netCall]
    split
    · simp only [processSendQueue]
      split
      · exact h
      · cases hk : s.clientSocket with
        | none => exact h
        | some sock =>
          simp only
          unfold LifeCycleInv at h ⊢
          rw [drainLoop_eq]
          obtain ⟨h1, h2, h3⟩ := h
          refine ⟨?_, h2, h3⟩
          intro hc
          simp_all
    · exact h

theorem lifeCycleInv_netStep (o : ByteOrder) (w : NetWorld) (a : NetAction)
    (h : LifeCycleInv w.manager) : LifeCycleInv (netStep o w a).manager := by
  unfold netStep
  cases hb : w.blocked with
  | true => simpa using h
  | false => simpa using lifeCycleInv_netCall o w.manager a h

theorem lifeCycleInv_foldl (o : ByteOrder) (actions : List NetAction) :
    ∀ w : NetWorld, LifeCycleInv w.manager →
      LifeCycleInv (actions.foldl (netStep o) w).manager := by
  induction actions with
  | nil => intro w h; exact h
  | cons a rest ih =>
    intro w h
    exact ih (netStep o w a) (lifeCycleInv_netStep o w a h)

theorem lifeCycleInv_netRun (o : ByteOrder) (actions : List NetAction) :
    ∀ s : NetworkManager, LifeCycleInv s → LifeCycleInv (netRun o s actions) := by
  intro s h
  exact lifeCycleInv_foldl o actions { manager := s, blocked := false } h

theorem lifeCycleInv_init : LifeCycleInv NetworkManager.init := by
  unfold LifeCycleInv NetworkManager.init
  simp

theorem statusTrueCount_append (l1 l2 : List NetEvent) :
    statusTrueCount (l1 ++ l2) = statusTrueCount l1 + statusTrueCount l2 := by
  simp [statusTrueCount]

theorem statusTrueCount_disconnect (s : NetworkManager) (socketState : SocketState)
    (pendingWrite : Bool) :
    statusTrueCount (disconnect s socketState pendingWrite).state.log
      = statusTrueCount s.log := by
  unfold disconnect
  cases hk : s.clientSocket <;> cases hc : s.connected <;> cases hv : s.isServer <;>
    cases socketState <;> cases pendingWrite <;>
    simp [hk, hc, hv, disconnectFinish, disconnectFromHostSignals, nestedSlots, nestedSlot,
      handleSocketStateChange, handleDisconnectUntilLock, statusTrueCount]

/-! ## Properties of the send queue -/

/-- C12. For every connected state with a client socket whose send queue holds `n` packets
`q1..qn`, one drain tick (`processSendQueue`) writes exactly the first `min(10, n)` packets
to the socket, in that order, and leaves the remaining `n - min(10, n)` packets in the
queue in their original order; nothing else of the manager changes. -/
theorem processSendQueue_drains_batch (s : NetworkManager) (sock : Nat)
    (hconn : s.connected = true) (hsock : s.clientSocket = some sock) :
    processSendQueue s =
      { s with
        sendQueue := s.sendQueue.drop (min 10 s.sendQueue.length),
        log := s.log ++
          (s.sendQueue.take (min 10 s.sendQueue.length)).map (NetEvent.write sock) } ∧
    writtenPackets (processSendQueue s).log =
      writtenPackets s.log ++ s.sendQueue.take (min 10 s.sendQueue.length) ∧
    (processSendQueue s).sendQueue.length = s.sendQueue.length - min 10 s.sendQueue.length := by
  have h := processSendQueue_eq s sock hconn hsock
  refine ⟨h, ?_, ?_⟩
  · rw [h]
    simp only [writtenPackets, List.filterMap_append, List.filterMap_map]
    congr 1
    induction (s.sendQueue.take (min 10 s.sendQueue.length)) with
    | nil => rfl
    | cons a l ih => simp [List.filterMap_cons, ih]
  · rw [h]; simp

/-- C12, witness: a queue of twelve packets; ten are written, the last two stay. -/
theorem processSendQueue_drains_batch_witness :
    ({ servingManager with sendQueue := twelvePackets } : NetworkManager).connected = true ∧
    ({ servingManager with sendQueue := twelvePackets } : NetworkManager).clientSocket = some 1 ∧
    writtenPackets (processSendQueue { servingManager with sendQueue := twelvePackets }).log =
      writtenPackets ({ servingManager with sendQueue := twelvePackets } : NetworkManager).log ++
        ({ servingManager with sendQueue := twelvePackets } : NetworkManager).sendQueue.take
          (min 10
            ({ servingManager with sendQueue := twelvePackets } : NetworkManager).sendQueue.length) :=
  ⟨by decide, by decide,
    (processSendQueue_drains_batch { servingManager with sendQueue := twelvePackets } 1
      (by decide) (by decide)).2.1⟩

/-- C13. FIFO delivery: for every interleaving of `sendAudioData` calls and drain ticks
during one connected session (a manager that is connected with a client socket), the
packets written to the socket during the session, followed by the packets still queued at
its end, are exactly the packets queued at its start followed by the packets enqueued
during it, in the same order. So the sequence written is a prefix of the sequence
enqueued, with no packet duplicated or reordered; nothing but these writes is added to the
log. -/
theorem sendQueue_fifo_delivery (o : ByteOrder) (s : NetworkManager) (sock : Nat)
    (steps : List SessionStep)
    (hconn : s.connected = true) (hsock : s.clientSocket = some sock) :
    ∃ W : List QByteArray,
      (sessionRun o s steps).log = s.log ++ W.map (NetEvent.write sock) ∧
      writtenPackets (sessionRun o s steps).log = writtenPackets s.log ++ W ∧
      W ++ (sessionRun o s steps).sendQueue = s.sendQueue ++ enqueuedPackets o steps := by
  obtain ⟨W, hlog, hq⟩ := sessionRun_fifo o sock steps s hconn hsock
  exact ⟨W, hlog, by rw [hlog, writtenPackets_append_writes], hq⟩

/-- C13, witness: three packets enqueued around two drain ticks on a serving manager. -/
theorem sendQueue_fifo_delivery_witness :
    servingManager.connected = true ∧ servingManager.clientSocket = some 1 ∧
    ∃ W : List QByteArray,
      (sessionRun ByteOrder.little servingManager
        [SessionStep.send [1], SessionStep.send [2], SessionStep.drainTick,
          SessionStep.send [3], SessionStep.drainTick]).log
        = servingManager.log ++ W.map (NetEvent.write 1) ∧
      writtenPackets (sessionRun ByteOrder.little servingManager
        [SessionStep.send [1], SessionStep.send [2], SessionStep.drainTick,
          SessionStep.send [3], SessionStep.drainTick]).log
        = writtenPackets servingManager.log ++ W ∧
      W ++ (sessionRun ByteOrder.little servingManager
        [SessionStep.send [1], SessionStep.send [2], SessionStep.drainTick,
          SessionStep.send [3], SessionStep.drainTick]).sendQueue
        = servingManager.sendQueue ++ enqueuedPackets ByteOrder.little
          [SessionStep.send [1], SessionStep.send [2], SessionStep.drainTick,
            SessionStep.send [3], SessionStep.drainTick] :=
  ⟨by decide, by decide,
    sendQueue_fifo_delivery ByteOrder.little servingManager 1
      [SessionStep.send [1], SessionStep.send [2], SessionStep.drainTick,
        SessionStep.send [3], SessionStep.drainTick] (by decide) (by decide)⟩

/-- C14. `sendAudioData d` returns true if and only if the data was queued: it returns true
exactly when the manager is connected with a client socket, and then it appends exactly
`createPacket 'A' d` at the tail of the send queue (the queue grows by one, the earlier
entries are unchanged) and changes nothing else; otherwise it returns false and leaves the
manager, queue included, unchanged. -/
theorem sendAudioData_queues_iff_true (o : ByteOrder) (s : NetworkManager) (d : QByteArray) :
    ((sendAudioData o s d).2 = true ↔ (s.connected = true ∧ s.clientSocket.isSome = true)) ∧
    ((sendAudioData o s d).2 = true →
      (sendAudioData o s d).1 =
        { s with sendQueue := s.sendQueue ++ [createPacket o PACKET_TYPE_AUDIO d] } ∧
      (sendAudioData o s d).1.sendQueue.length = s.sendQueue.length + 1) ∧
    ((sendAudioData o s d).2 = false → (sendAudioData o s d).1 = s) := by
  unfold sendAudioData
  cases hc : s.connected <;> cases hk : s.clientSocket <;> simp

/-! ## Properties of the connection life cycle -/

/-- C15. Queued-but-unsent entries never survive leaving Connected: in every state that a
freshly made manager reaches through any sequence of `startServer`, `connectToServer`,
`disconnect`, `sendAudioData`, the server and socket events and the timer ticks, if the
manager is not connected then the send queue is empty. -/
theorem sendQueue_empty_when_not_connected (o : ByteOrder) (actions : List NetAction)
    (h : (netRun o NetworkManager.init actions).connected = false) :
    (netRun o NetworkManager.init actions).sendQueue = [] :=
  (lifeCycleInv_netRun o actions NetworkManager.init lifeCycleInv_init).1 h

/-- C15, witness: a client connects, queues two audio frames and then loses its peer. -/
theorem sendQueue_empty_when_not_connected_witness :
    (netRun ByteOrder.little NetworkManager.init
      [NetAction.connectToServer "127.0.0.1" 5000 1 SocketState.UnconnectedState false,
        NetAction.socketConnected,
        NetAction.sendAudioData [1], NetAction.sendAudioData [2],
        NetAction.socketDisconnected]).connected = false ∧
    (netRun ByteOrder.little NetworkManager.init
      [NetAction.connectToServer "127.0.0.1" 5000 1 SocketState.UnconnectedState false,
        NetAction.socketConnected,
        NetAction.sendAudioData [1], NetAction.sendAudioData [2],
        NetAction.socketDisconnected]).sendQueue = [] :=
  ⟨by decide,
    sendQueue_empty_when_not_connected ByteOrder.little
      [NetAction.connectToServer "127.0.0.1" 5000 1 SocketState.UnconnectedState false,
        NetAction.socketConnected,
        NetAction.sendAudioData [1], NetAction.sendAudioData [2],
        NetAction.socketDisconnected] (by decide)⟩

/-- C16. In every state that a freshly made manager reaches through any sequence of calls,
server and socket events and timer ticks, the latency-probe timer and the send-queue drain
timer are both running if and only if the manager is connected (each of them is active
exactly when `connected` holds). Entering Connected starts both: the `connected` event of
the client socket and an accepted first connection leave both timers active; every way of
leaving Connected stops both: `disconnect`, whatever the socket does during the call and
also where the call blocks, and `handleDisconnect` leave both inactive. -/
theorem timers_running_iff_connected (o : ByteOrder) (actions : List NetAction)
    (s : NetworkManager) (pending : Nat) (peerAddress : String)
    (socketState : SocketState) (pendingWrite : Bool) :
    (((netRun o NetworkManager.init actions).pingTimerActive = true ∧
        (netRun o NetworkManager.init actions).sendQueueTimerActive = true) ↔
      (netRun o NetworkManager.init actions).connected = true) ∧
    (netRun o NetworkManager.init actions).pingTimerActive
      = (netRun o NetworkManager.init actions).connected ∧
    (netRun o NetworkManager.init actions).sendQueueTimerActive
      = (netRun o NetworkManager.init actions).connected ∧
    ((socketConnected s).connected = true ∧ (socketConnected s).pingTimerActive = true ∧
      (socketConnected s).sendQueueTimerActive = true) ∧
    (s.clientSocket = none →
      (handleNewConnection s pending peerAddress).connected = true ∧
      (handleNewConnection s pending peerAddress).pingTimerActive = true ∧
      (handleNewConnection s pending peerAddress).sendQueueTimerActive = true) ∧
    ((disconnect s socketState pendingWrite).state.connected = false ∧
      (disconnect s socketState pendingWrite).state.pingTimerActive = false ∧
      (disconnect s socketState pendingWrite).state.sendQueueTimerActive = false) ∧
    ((handleDisconnect s).connected = false ∧ (handleDisconnect s).pingTimerActive = false ∧
      (handleDisconnect s).sendQueueTimerActive = false) := by
  obtain ⟨_, h2, h3⟩ := lifeCycleInv_netRun o actions NetworkManager.init lifeCycleInv_init
  refine ⟨?_, h2, h3, ?_, ?_, ?_, ?_⟩
  · rw [h2, h3]; simp
  · simp [socketConnected]
  · intro hk; simp [handleNewConnection, hk]
  · unfold disconnect
    cases hk : s.clientSocket <;> cases hc : s.connected <;> cases hv : s.isServer <;>
      cases socketState <;> cases pendingWrite <;>
      simp [hk, hc, hv, disconnectFinish, disconnectFromHostSignals, nestedSlots, nestedSlot,
        handleSocketStateChange, handleDisconnectUntilLock]
  · unfold handleDisconnect
    cases s.clientSocket <;> simp

/-- C17. When a peer is already being served (the manager holds a client socket, as it
does in server mode after the first connection), a second inbound connection is accepted and closed immediately (`disconnectFromHost` and `deleteLater` on the new socket) and
changes nothing: the served socket, the connected flag, both timers and the
send queue are unchanged, and no connection-status notification is emitted. -/
theorem handleNewConnection_rejects_second (s : NetworkManager) (served pending : Nat)
    (peerAddress : String) (hserved : s.clientSocket = some served) :
    handleNewConnection s pending peerAddress =
      { s with
        log := s.log ++ [NetEvent.disconnectFromHost pending, NetEvent.deleteLater pending] } ∧
    (handleNewConnection s pending peerAddress).clientSocket = some served ∧
    (handleNewConnection s pending peerAddress).connected = s.connected ∧
    (handleNewConnection s pending peerAddress).pingTimerActive = s.pingTimerActive ∧
    (handleNewConnection s pending peerAddress).sendQueueTimerActive = s.sendQueueTimerActive ∧
    (handleNewConnection s pending peerAddress).sendQueue = s.sendQueue ∧
    (∀ (c : Bool) (m : String), NetEvent.connectionStatusChanged c m ∉
      (handleNewConnection s pending peerAddress).log.drop s.log.length) := by
  simp [handleNewConnection, hserved]

/-- C17, witness: a serving manager turns away the socket with handle `2`. -/
theorem handleNewConnection_rejects_second_witness :
    servingManager.clientSocket = some 1 ∧
    handleNewConnection servingManager 2 "10.0.0.9" =
      { servingManager with
        log := servingManager.log ++
          [NetEvent.disconnectFromHost 2, NetEvent.deleteLater 2] } :=
  ⟨by decide,
    (handleNewConnection_rejects_second servingManager 1 2 "10.0.0.9" (by decide)).1⟩

/-- C18, counterexample. A freshly made client that goes through `connectToServer`, socket
state Connecting, socket state Connected and the `connected` event of its socket has
emitted two notifications with `connected = true`, not one: "Connected" from
`handleSocketStateChange` and "Connected to server" from the `connected` handler. -/
theorem client_connection_notifies_twice :
    statusTrueCount connectedClient.log = 2 ∧
    connectedClient.log.drop 3 =
      [NetEvent.connectionStatusChanged false "Connecting...",
       NetEvent.connectionStatusChanged true "Connected",
       NetEvent.connectionStatusChanged true "Connected to server"] := by
  decide

/-- C18, amended. For a successful connection the server side emits the connection-status
notification with `connected = true` exactly once, over the event `handleNewConnection`
(on a manager with no client socket yet); the client side emits it exactly twice over the
event sequence `connectToServer`, socket state Connecting, socket state Connected, socket
connected: once for the socket state Connected and once for the `connected` event. -/
theorem connection_status_true_counts (s : NetworkManager) (pending socket : Nat)
    (peerAddress address : String) (port : Int) (socketState : SocketState)
    (pendingWrite : Bool) (hfree : s.clientSocket = none) :
    statusTrueCount (handleNewConnection s pending peerAddress).log
      = statusTrueCount s.log + 1 ∧
    statusTrueCount
      (socketConnected
        (handleSocketStateChange
          (handleSocketStateChange
            (connectToServer s address port socket socketState pendingWrite).state
            SocketState.ConnectingState)
          SocketState.ConnectedState)).log
      = statusTrueCount s.log + 2 := by
  constructor
  · simp [handleNewConnection, hfree, statusTrueCount]
  · have hd := statusTrueCount_disconnect s socketState pendingWrite
    have hr : (disconnect s socketState pendingWrite).result = some () := by
      simp [disconnect, hfree]
    simp only [connectToServer, hr, handleSocketStateChange, socketConnected,
      statusTrueCount_append, hd]
    simp [statusTrueCount]

/-- C18, witness: a freshly made manager as server and as client. -/
theorem connection_status_true_counts_witness :
    NetworkManager.init.clientSocket = none ∧
    statusTrueCount (handleNewConnection NetworkManager.init 1 "10.0.0.9").log
      = statusTrueCount NetworkManager.init.log + 1 :=
  ⟨by decide,
    (connection_status_true_counts NetworkManager.init 1 1 "10.0.0.9" "127.0.0.1" 5000
      SocketState.UnconnectedState false (by decide)).1⟩

/-- C20. For every sample buffer and size, including a null buffer, an empty or silent
period and samples of any magnitude, and for every behaviour of the floating-point
operations, `calculateAudioLevel` returns an integer level with `0 <= level <= 100`. -/
theorem calculateAudioLevel_range {F : Type} (ops : FloatOps F) (data : Option (Nat → F))
    (size : Nat) :
    0 ≤ calculateAudioLevel ops data size ∧ calculateAudioLevel ops data size ≤ 100 := by
  unfold calculateAudioLevel
  cases data with
  | none => simp
  | some d =>
    simp only
    split
    · simp
    · omega

/-! ## Lemmas on the level meter, the engine and the codec stand-in -/

theorem calculateAudioLevel_eq_of_log10Argument {F : Type} (ops : FloatOps F)
    (data : Option (Nat → F)) (size : Nat) :
    calculateAudioLevel ops data size =
      match levelLog10Argument ops data size with
      | none => 0
      | some rms =>
        max 0 (min 100
          (ops.toInt (ops.div (ops.mul (ops.add (ops.mul (ops.ofNat 20) (ops.log10 rms))
            (ops.ofNat 60)) (ops.ofNat 100)) (ops.ofNat 60)))) := by
  unfold calculateAudioLevel levelLog10Argument
  cases data with
  | none => rfl
  | some d =>
    by_cases h : size = 0
    · simp [h]
    · simp [h]

theorem foldl_squares_zero {F : Type} (ops : FloatOps F) (d : Nat → F) (hz : ZeroLaws ops)
    (l : List Nat) (hl : ∀ i ∈ l, d i = ops.ofNat 0) :
    l.foldl (fun sum i => ops.add sum (ops.mul (d i) (d i))) (ops.ofNat 0) = ops.ofNat 0 := by
  induction l with
  | nil => rfl
  | cons i rest ih =>
    have hi : d i = ops.ofNat 0 := hl i (by simp)
    rw [List.foldl_cons, hi, hz.1, hz.2.1]
    exact ih (fun j hj => hl j (by simp [hj]))

theorem sumSquares_silent {F : Type} (ops : FloatOps F) (d : Nat → F) (size : Nat)
    (hz : ZeroLaws ops) (hsilent : ∀ i, i < size → d i = ops.ofNat 0) :
    sumSquares ops d size = ops.ofNat 0 := by
  unfold sumSquares
  exact foldl_squares_zero ops d hz (List.range size)
    (fun i hi => hsilent i (List.mem_range.mp hi))

theorem zeroLaws_extIntOps : ZeroLaws extIntOps := by
  refine ⟨rfl, rfl, ?_, rfl⟩
  intro n hn
  have h : ¬ ((n : Int) = 0) := by omega
  simp [extIntOps, ExtInt.div, h]

theorem initializeEngine_of_initialized (e : Engine) (out : PaOutcome)
    (h : e.manager.isInitialized = true) : initializeEngine e out = (e, true) := by
  simp [initializeEngine, h]

theorem initializeEngine_true_initialized (e : Engine) (out : PaOutcome)
    (h : (initializeEngine e out).2 = true) :
    (initializeEngine e out).1.manager.isInitialized = true := by
  unfold initializeEngine at h ⊢
  cases hi : e.manager.isInitialized <;> cases ho : out.initializeOk <;> simp_all

theorem stop_idle (e : Engine) (h : EngineInv e) :
    (stop e).manager.isRunning = false ∧ (stop e).manager.inputStream = none ∧
    (stop e).manager.outputStream = none ∧ (stop e).backend.openStreams = [] ∧
    (stop e).backend.startedStreams = [] := by
  obtain ⟨ho, hs, hidle⟩ := h
  unfold stop
  cases hr : e.manager.isRunning with
  | false =>
    obtain ⟨hi, hu⟩ := hidle hr
    simp [hr, hi, hu, ho, hs]
  | true =>
    cases hi : e.manager.inputStream <;> cases hu : e.manager.outputStream <;>
      cases hm : e.manager.transmissionMode <;>
      simp [hr, hi, hu, hm, ho, hs, PortAudio.stopStream, PortAudio.closeStream]

theorem start_eq_start_stop (e : Engine) (n1 n2 : String) (sr bs : Int)
    (mode : TransmissionMode) (out : PaOutcome) (h : EngineInv e) :
    start e n1 n2 sr bs mode out = start (stop e) n1 n2 sr bs mode out := by
  have hidle := (stop_idle e h).1
  cases hr : e.manager.isRunning with
  | false => simp [stop, hr]
  | true =>
    conv_lhs => unfold start
    conv_rhs => unfold start
    simp only [hr, hidle, if_true]
    simp


theorem start_idle_result (e : Engine) (n1 n2 : String) (sr bs : Int)
    (mode : TransmissionMode) (out : PaOutcome)
    (hr : e.manager.isRunning = false) (hi : e.manager.inputStream = none)
    (hu : e.manager.outputStream = none) (ho : e.backend.openStreams = [])
    (hs : e.backend.startedStreams = []) :
    ((start e n1 n2 sr bs mode out).2 = false →
      (start e n1 n2 sr bs mode out).1.manager.isRunning = false ∧
      (start e n1 n2 sr bs mode out).1.manager.inputStream = none ∧
      (start e n1 n2 sr bs mode out).1.manager.outputStream = none ∧
      (start e n1 n2 sr bs mode out).1.backend.openStreams = [] ∧
      (start e n1 n2 sr bs mode out).1.backend.startedStreams = []) ∧
    ((start e n1 n2 sr bs mode out).2 = true →
      (start e n1 n2 sr bs mode out).1.manager.isRunning = true ∧
      (start e n1 n2 sr bs mode out).1.manager.inputStream = some e.backend.nextStream ∧
      (start e n1 n2 sr bs mode out).1.manager.outputStream = some (e.backend.nextStream + 1) ∧
      (start e n1 n2 sr bs mode out).1.backend.openStreams
        = [e.backend.nextStream, e.backend.nextStream + 1] ∧
      (start e n1 n2 sr bs mode out).1.backend.startedStreams
        = [e.backend.nextStream, e.backend.nextStream + 1]) := by
  obtain ⟨iok, oiok, oook, siok, sook, txt⟩ := out
  unfold start initializeEngine
  cases hinit : e.manager.isInitialized <;> cases iok <;> cases oiok <;> cases oook <;>
    cases siok <;> cases sook <;> cases mode <;>
    simp [hr, hi, hu, ho, hs, hinit, PortAudio.openStream, PortAudio.closeStream,
      PortAudio.stopStream, PortAudio.startStream]

theorem engineInv_stop (e : Engine) (h : EngineInv e) : EngineInv (stop e) := by
  obtain ⟨h1, h2, h3, h4, h5⟩ := stop_idle e h
  unfold EngineInv
  simp [h2, h3, h4, h5]

theorem engineInv_start (e : Engine) (n1 n2 : String) (sr bs : Int)
    (mode : TransmissionMode) (out : PaOutcome) (h : EngineInv e) :
    EngineInv (start e n1 n2 sr bs mode out).1 := by
  rw [start_eq_start_stop e n1 n2 sr bs mode out h]
  obtain ⟨h1, h2, h3, h4, h5⟩ := stop_idle e h
  obtain ⟨hf, ht⟩ := start_idle_result (stop e) n1 n2 sr bs mode out h1 h2 h3 h4 h5
  unfold EngineInv
  cases hres : (start (stop e) n1 n2 sr bs mode out).2 with
  | false =>
    obtain ⟨a, b, c, d, f⟩ := hf hres
    simp [a, b, c, d, f]
  | true =>
    obtain ⟨a, b, c, d, f⟩ := ht hres
    simp [a, b, c, d, f]

theorem engineInv_freshEngine : EngineInv freshEngine := by
  unfold EngineInv
  decide

theorem setTransmissionMode_running (e : Engine) (m : TransmissionMode) (out : PaOutcome)
    (inputDevice outputDevice : String) (restIn restOut : List String)
    (hrun : e.manager.isRunning = true) (hinit : e.manager.isInitialized = true)
    (hin : (getInputDevices e out).2 = inputDevice :: restIn)
    (hout : (getOutputDevices e out).2 = outputDevice :: restOut)
    (hne : m ≠ e.manager.transmissionMode) :
    setTransmissionMode e m out =
      some (start (stop { e with manager := { e.manager with transmissionMode := m } })
        inputDevice outputDevice e.manager.sampleRate e.manager.bufferSize m out).1 := by
  have hne2 : ¬ (e.manager.transmissionMode = m) := fun h => hne h.symm
  simp only [getInputDevices, getOutputDevices, hinit, if_true] at hin hout
  simp at hin hout
  unfold setTransmissionMode
  simp only [hne2, if_false, hrun, getInputDevices, getOutputDevices, hinit, if_true]
  simp [hin, hout]

theorem start_after_stop_all_ok (e : Engine) (n1 n2 : String) (sr bs : Int)
    (mode : TransmissionMode) (out : PaOutcome)
    (hinit : e.manager.isInitialized = true)
    (hoi : out.openInputOk = true) (hoo : out.openOutputOk = true)
    (hsi : out.startInputOk = true) (hso : out.startOutputOk = true) :
    (start (stop e) n1 n2 sr bs mode out).1.manager.isRunning = true ∧
    (start (stop e) n1 n2 sr bs mode out).1.manager.transmissionMode = mode ∧
    (start (stop e) n1 n2 sr bs mode out).1.manager.sampleRate = sr ∧
    (start (stop e) n1 n2 sr bs mode out).1.manager.bufferSize = bs := by
  unfold start stop
  cases hr : e.manager.isRunning <;> cases hi : e.manager.inputStream <;>
    cases hu : e.manager.outputStream <;> cases hm : e.manager.transmissionMode <;>
    cases mode <;>
    simp [hr, hi, hu, hm, hinit, hoi, hoo, hsi, hso]

theorem start_stop_mode_irrelevant (e : Engine) (n1 n2 : String) (sr bs : Int)
    (m : TransmissionMode) (out : PaOutcome)
    (hinit : e.manager.isInitialized = true)
    (hoi : out.openInputOk = true) (hoo : out.openOutputOk = true)
    (hsi : out.startInputOk = true) (hso : out.startOutputOk = true) :
    (start (stop { e with manager := { e.manager with transmissionMode := m } })
        n1 n2 sr bs m out).1.backend
      = (start (stop e) n1 n2 sr bs m out).1.backend ∧
    (start (stop { e with manager := { e.manager with transmissionMode := m } })
        n1 n2 sr bs m out).1.errors
      = (start (stop e) n1 n2 sr bs m out).1.errors ∧
    { (start (stop { e with manager := { e.manager with transmissionMode := m } })
        n1 n2 sr bs m out).1.manager with opusEncoder := false, opusDecoder := false }
      = { (start (stop e) n1 n2 sr bs m out).1.manager with
          opusEncoder := false, opusDecoder := false } ∧
    (e.manager.transmissionMode = TransmissionMode.Raw →
      (start (stop { e with manager := { e.manager with transmissionMode := m } })
        n1 n2 sr bs m out).1 = (start (stop e) n1 n2 sr bs m out).1) := by
  unfold start stop
  cases hr : e.manager.isRunning <;> cases hi : e.manager.inputStream <;>
    cases hu : e.manager.outputStream <;> cases hm : e.manager.transmissionMode <;>
    cases m <;>
    simp [hr, hi, hu, hm, hinit, hoi, hoo, hsi, hso]

theorem decodeAudio_encodeAudio (x : QByteArray) (hx : (encodeAudio x).length < 2147483648) :
    decodeAudio (encodeAudio x) = x := by
  have hlen : (encodeAudio x).length = x.length + 4 := by
    simp [encodeAudio, opusMarker]
  rw [hlen] at hx
  have htake : (encodeAudio x).take 4 = opusMarker := by
    simp [encodeAudio, opusMarker]
  unfold decodeAudio
  rw [if_pos htake]
  unfold mid
  have h1 : ¬ ((4 : Int) > ((encodeAudio x).length : Int)) := by rw [hlen]; push_cast; omega
  have h2 : ¬ ((4 : Int) < 0) := by decide
  have h3 : toUInt32 (-1) > toUInt32 (((encodeAudio x).length : Int) - 4) := by
    rw [hlen]; unfold toUInt32; push_cast; omega
  simp only [h1, h2, h3, if_true, if_false]
  have h4 : (((encodeAudio x).length : Int) - 4).toNat = x.length := by
    rw [hlen]; push_cast; omega
  rw [h4]
  simp [encodeAudio, opusMarker]

/-! ## Properties of the level meter on a silent period -/

/-- C21, counterexample. On a silent period of four samples `calculateAudioLevel` does
evaluate `std::log10` at zero: the argument of the call is `rms = 0.0f`; the level `0`
comes out of the clamp applied to the conversion of minus infinity. -/
theorem calculateAudioLevel_silent_takes_log10_of_zero :
    levelLog10Argument extIntOps (some silentBuffer) 4 = some (extIntOps.ofNat 0) ∧
    extIntOps.log10 (extIntOps.ofNat 0) = ExtInt.negInf ∧
    calculateAudioLevel extIntOps (some silentBuffer) 4 = 0 := by
  decide

/-- C21, amended. An empty period (a null buffer or `size = 0`) yields level 0 without
evaluating any logarithm. For a non-empty buffer whose samples are all zero, in every
float arithmetic in which `0 * 0`, `0 + 0`, `0 / n` and `sqrt 0` are `0`, the function does
evaluate `log10` of `rms = 0`, and the level it returns is the clamp to `[0, 100]` of the
`int` conversion of `(20 * log10 0 + 60) * 100 / 60`; that level is 0 whenever the
conversion does not yield a positive `int`. -/
theorem calculateAudioLevel_silent_or_empty {F : Type} (ops : FloatOps F) (d : Nat → F)
    (size : Nat) (hz : ZeroLaws ops) (hsilent : ∀ i, i < size → d i = ops.ofNat 0) :
    (calculateAudioLevel ops none size = 0 ∧ levelLog10Argument ops none size = none) ∧
    (calculateAudioLevel ops (some d) 0 = 0 ∧ levelLog10Argument ops (some d) 0 = none) ∧
    (0 < size →
      levelLog10Argument ops (some d) size = some (ops.ofNat 0) ∧
      calculateAudioLevel ops (some d) size =
        max 0 (min 100
          (ops.toInt (ops.div (ops.mul (ops.add (ops.mul (ops.ofNat 20)
            (ops.log10 (ops.ofNat 0))) (ops.ofNat 60)) (ops.ofNat 100)) (ops.ofNat 60)))) ∧
      (ops.toInt (ops.div (ops.mul (ops.add (ops.mul (ops.ofNat 20)
          (ops.log10 (ops.ofNat 0))) (ops.ofNat 60)) (ops.ofNat 100)) (ops.ofNat 60)) ≤ 0 →
        calculateAudioLevel ops (some d) size = 0)) := by
  refine ⟨⟨rfl, rfl⟩, ⟨by simp [calculateAudioLevel], by simp [levelLog10Argument]⟩, ?_⟩
  intro hpos
  have hne : size ≠ 0 := by omega
  have hsum := sumSquares_silent ops d size hz hsilent
  have harg : levelLog10Argument ops (some d) size = some (ops.ofNat 0) := by
    simp [levelLog10Argument, hne, hsum, hz.2.2.1 size hpos, hz.2.2.2]
  have hlevel := calculateAudioLevel_eq_of_log10Argument ops (some d) size
  rw [harg] at hlevel
  simp only at hlevel
  refine ⟨harg, hlevel, ?_⟩
  intro hle
  rw [hlevel, min_eq_right (le_trans hle (by decide)), max_eq_left hle]

/-- C21, witness: the silent period of four samples in the arithmetic `extIntOps`. -/
theorem calculateAudioLevel_silent_or_empty_witness :
    ZeroLaws extIntOps ∧ (∀ i, i < 4 → silentBuffer i = extIntOps.ofNat 0) ∧
    (0 < 4 → levelLog10Argument extIntOps (some silentBuffer) 4 = some (extIntOps.ofNat 0)) :=
  ⟨zeroLaws_extIntOps, fun _ _ => rfl,
    fun h => ((calculateAudioLevel_silent_or_empty extIntOps silentBuffer 4 zeroLaws_extIntOps
      (fun _ _ => rfl)).2.2 h).1⟩

/-! ## Properties of the engine -/

/-- C22. No partial-stream leak: from every engine that is consistent with the library
(the library holds exactly the streams the manager points to, none when it is not
running), for every outcome of the initialization and of the four backend steps (open
input, open output, start input, start output), whenever `start` returns false no stream
is left open or started in the library, so every stream the call opened has been closed,
the manager points to no stream, and the engine is not running. -/
theorem start_failure_leaves_no_stream (e : Engine) (inputDeviceName outputDeviceName : String)
    (sampleRate bufferSize : Int) (mode : TransmissionMode) (out : PaOutcome)
    (hinv : EngineInv e)
    (hfail : (start e inputDeviceName outputDeviceName sampleRate bufferSize mode out).2
      = false) :
    (start e inputDeviceName outputDeviceName sampleRate bufferSize mode out).1.backend.openStreams
      = [] ∧
    (start e inputDeviceName outputDeviceName sampleRate bufferSize mode out).1.backend.startedStreams
      = [] ∧
    (start e inputDeviceName outputDeviceName sampleRate bufferSize mode out).1.manager.inputStream
      = none ∧
    (start e inputDeviceName outputDeviceName sampleRate bufferSize mode out).1.manager.outputStream
      = none ∧
    (start e inputDeviceName outputDeviceName sampleRate bufferSize mode out).1.manager.isRunning
      = false := by
  rw [start_eq_start_stop e _ _ _ _ mode out hinv] at hfail ⊢
  obtain ⟨h1, h2, h3, h4, h5⟩ := stop_idle e hinv
  obtain ⟨a, b, c, d, f⟩ :=
    (start_idle_result (stop e) inputDeviceName outputDeviceName sampleRate bufferSize mode out
      h1 h2 h3 h4 h5).1 hfail
  exact ⟨d, f, b, c, a⟩

/-- C22, witness: a running engine is started again and the library refuses to start the
new output stream. -/
theorem start_failure_leaves_no_stream_witness :
    EngineInv (start freshEngine "default" "default" 48000 256 TransmissionMode.Raw allOk).1 ∧
    (start (start freshEngine "default" "default" 48000 256 TransmissionMode.Raw allOk).1
      "default" "default" 44100 128 TransmissionMode.Opus
      { allOk with startOutputOk := false }).2 = false ∧
    (start (start freshEngine "default" "default" 48000 256 TransmissionMode.Raw allOk).1
      "default" "default" 44100 128 TransmissionMode.Opus
      { allOk with startOutputOk := false }).1.backend.openStreams = [] :=
  ⟨engineInv_start freshEngine "default" "default" 48000 256 TransmissionMode.Raw allOk
      engineInv_freshEngine,
    by decide,
    (start_failure_leaves_no_stream
      (start freshEngine "default" "default" 48000 256 TransmissionMode.Raw allOk).1
      "default" "default" 44100 128 TransmissionMode.Opus { allOk with startOutputOk := false }
      (engineInv_start freshEngine "default" "default" 48000 256 TransmissionMode.Raw allOk
        engineInv_freshEngine)
      (by decide)).1⟩

/-- C23. `initialize` is idempotent: once a call of `initialize` has returned true, every
further call, whatever the library would answer, returns true and leaves the engine and
the library unchanged, so `Pa_Initialize` is not called again; this holds for any number of
further calls. A call that initializes an engine not yet initialized calls `Pa_Initialize`
exactly once. -/
theorem initialize_idempotent (e : Engine) (out out2 : PaOutcome) (outs : List PaOutcome)
    (h : (initializeEngine e out).2 = true) :
    initializeEngine (initializeEngine e out).1 out2 = ((initializeEngine e out).1, true) ∧
    (initializeEngine (initializeEngine e out).1 out2).1.backend.initializeCalls
      = (initializeEngine e out).1.backend.initializeCalls ∧
    outs.foldl (fun st o => (initializeEngine st o).1) (initializeEngine e out).1
      = (initializeEngine e out).1 ∧
    (∀ o ∈ outs, (initializeEngine (initializeEngine e out).1 o).2 = true) ∧
    (e.manager.isInitialized = false →
      (initializeEngine e out).1.backend.initializeCalls = e.backend.initializeCalls + 1) := by
  have hi := initializeEngine_true_initialized e out h
  have hstep : ∀ o : PaOutcome,
      initializeEngine (initializeEngine e out).1 o = ((initializeEngine e out).1, true) :=
    fun o => initializeEngine_of_initialized _ o hi
  refine ⟨hstep out2, by rw [hstep out2], ?_, fun o _ => by rw [hstep o], ?_⟩
  · induction outs with
    | nil => rfl
    | cons o rest ih => rw [List.foldl_cons, hstep o]; exact ih
  · intro hni
    unfold initializeEngine at h ⊢
    cases ho : out.initializeOk <;> simp_all

/-- C23, witness: the fresh engine is initialized, then asked again while the library
would refuse. -/
theorem initialize_idempotent_witness :
    (initializeEngine freshEngine allOk).2 = true ∧
    initializeEngine (initializeEngine freshEngine allOk).1
        { allOk with initializeOk := false }
      = ((initializeEngine freshEngine allOk).1, true) :=
  ⟨by decide,
    (initialize_idempotent freshEngine allOk { allOk with initializeOk := false } []
      (by decide)).1⟩

/-- C24. For a running (and so initialized) engine and a mode `m` different from the
current one, when the library lists an input and an output device and accepts the four
steps of the restart, `setTransmissionMode m` continues and behaves as `stop` followed by
`start` with `m`, on the first devices and with the sample rate and buffer size of the
engine: afterwards the engine is running with transmission mode `m` and the same sample
rate and buffer size as before; the library, the errors emitted and every data member
other than the two placeholder codec handles are those that `stop` followed by `start`
leaves, and so are the handles when the mode left is Raw. When `m` equals the current mode
the state is unchanged. -/
theorem setTransmissionMode_restarts (e : Engine) (m : TransmissionMode) (out : PaOutcome)
    (inputDevice outputDevice : String) (restIn restOut : List String)
    (hrun : e.manager.isRunning = true) (hinit : e.manager.isInitialized = true)
    (hin : (getInputDevices e out).2 = inputDevice :: restIn)
    (hout : (getOutputDevices e out).2 = outputDevice :: restOut)
    (hoi : out.openInputOk = true) (hoo : out.openOutputOk = true)
    (hsi : out.startInputOk = true) (hso : out.startOutputOk = true) :
    (m ≠ e.manager.transmissionMode →
      ∃ r : Engine, setTransmissionMode e m out = some r ∧
        r.manager.isRunning = true ∧ r.manager.transmissionMode = m ∧
        r.manager.sampleRate = e.manager.sampleRate ∧
        r.manager.bufferSize = e.manager.bufferSize ∧
        r.backend = (start (stop e) inputDevice outputDevice e.manager.sampleRate
          e.manager.bufferSize m out).1.backend ∧
        r.errors = (start (stop e) inputDevice outputDevice e.manager.sampleRate
          e.manager.bufferSize m out).1.errors ∧
        { r.manager with opusEncoder := false, opusDecoder := false } =
          { (start (stop e) inputDevice outputDevice e.manager.sampleRate
              e.manager.bufferSize m out).1.manager with
            opusEncoder := false, opusDecoder := false } ∧
        (e.manager.transmissionMode = TransmissionMode.Raw →
          r = (start (stop e) inputDevice outputDevice e.manager.sampleRate
            e.manager.bufferSize m out).1)) ∧
    setTransmissionMode e e.manager.transmissionMode out = some e := by
  constructor
  · intro hne
    have heq := setTransmissionMode_running e m out inputDevice outputDevice restIn restOut
      hrun hinit hin hout hne
    have hfields := start_after_stop_all_ok
      { e with manager := { e.manager with transmissionMode := m } }
      inputDevice outputDevice e.manager.sampleRate e.manager.bufferSize m out
      hinit hoi hoo hsi hso
    have hsame := start_stop_mode_irrelevant e inputDevice outputDevice
      e.manager.sampleRate e.manager.bufferSize m out hinit hoi hoo hsi hso
    exact ⟨_, heq, hfields.1, hfields.2.1, hfields.2.2.1, hfields.2.2.2,
      hsame.1, hsame.2.1, hsame.2.2.1, hsame.2.2.2⟩
  · simp [setTransmissionMode]

/-- C24, witness: the fresh engine, started in Raw mode, is switched to Opus. -/
theorem setTransmissionMode_restarts_witness :
    (start freshEngine "default" "default" 44100 128 TransmissionMode.Raw allOk).1.manager.isRunning
      = true ∧
    ∃ r : Engine,
      setTransmissionMode
        (start freshEngine "default" "default" 44100 128 TransmissionMode.Raw allOk).1
        TransmissionMode.Opus allOk = some r ∧
      r.manager.isRunning = true ∧ r.manager.transmissionMode = TransmissionMode.Opus ∧
      r.manager.sampleRate = 44100 ∧ r.manager.bufferSize = 128 :=
  ⟨by decide,
    let ⟨r, h1, h2, h3, h4, h5, _⟩ :=
      (setTransmissionMode_restarts
        (start freshEngine "default" "default" 44100 128 TransmissionMode.Raw allOk).1
        TransmissionMode.Opus allOk "default" "default" [] []
        (by decide) (by decide) (by decide) (by decide)
        (by decide) (by decide) (by decide) (by decide)).1 (by decide)
    ⟨r, h1, h2, h3, h4, h5⟩⟩

/-- C26, at the failing input. The fresh engine is started in Opus mode and then switched
to Raw with `setTransmissionMode`, the library accepting every call: the engine ends
running in Raw mode with both placeholder Opus handles still non-null, because `stop` tests
`transmissionMode`, which `setTransmissionMode` has already set to Raw; a `stop` after that
leaves them non-null as well. -/
theorem setTransmissionMode_leaves_opus_handles :
    (start freshEngine "default" "default" 48000 256 TransmissionMode.Opus allOk).2 = true ∧
    (setTransmissionMode
        (start freshEngine "default" "default" 48000 256 TransmissionMode.Opus allOk).1
        TransmissionMode.Raw allOk).map
      (fun r => (r.manager.isRunning, r.manager.transmissionMode, r.manager.opusEncoder,
        r.manager.opusDecoder))
      = some (true, TransmissionMode.Raw, true, true) ∧
    (setTransmissionMode
        (start freshEngine "default" "default" 48000 256 TransmissionMode.Opus allOk).1
        TransmissionMode.Raw allOk).map
      (fun r => ((stop r).manager.isRunning, (stop r).manager.opusEncoder,
        (stop r).manager.opusDecoder))
      = some (false, true, true) := by
  decide

/-! ## Properties of the decoder and of the codec stand-in -/

/-- C25. Prefix decoding: for every buffer `b` of at least 5 bytes (and, as a byte array,
fewer than `2^31`) whose declared length `L` is below `2^31 - 5`, `parsePacket` succeeds
if and only if `|b| >= 5 + L`, and on success it yields the type `b[0]` and as payload
exactly the `L` bytes `b[5 .. 5+L)`, whatever bytes follow the frame. -/
theorem parsePacket_prefix_decoding (o : ByteOrder) (t b0 b1 b2 b3 : Byte) (tl : QByteArray)
    (hL : quint32OfBytes o b0 b1 b2 b3 + 5 < 2147483648)
    (hb : (t :: b0 :: b1 :: b2 :: b3 :: tl).length < 2147483648) :
    ((parsePacket o (t :: b0 :: b1 :: b2 :: b3 :: tl)).isSome = true ↔
      5 + quint32OfBytes o b0 b1 b2 b3 ≤ (t :: b0 :: b1 :: b2 :: b3 :: tl).length) ∧
    (5 + quint32OfBytes o b0 b1 b2 b3 ≤ (t :: b0 :: b1 :: b2 :: b3 :: tl).length →
      parsePacket o (t :: b0 :: b1 :: b2 :: b3 :: tl) =
        some (t, ((t :: b0 :: b1 :: b2 :: b3 :: tl).drop 5).take
          (quint32OfBytes o b0 b1 b2 b3))) := by
  simp only [List.length_cons] at hb ⊢
  by_cases hle : quint32OfBytes o b0 b1 b2 b3 ≤ tl.length
  · have hs := parsePacket_success o t b0 b1 b2 b3 tl (by omega) hle (by omega)
    constructor
    · rw [hs]; simp; omega
    · intro _; rw [hs]; simp
  · have hn := parsePacket_short o t b0 b1 b2 b3 tl hL (by omega)
    constructor
    · rw [hn]; simp; omega
    · intro h; omega

/-- C25, witness: an audio frame with payload `01 02` followed by three more bytes. -/
theorem parsePacket_prefix_decoding_witness :
    quint32OfBytes ByteOrder.little 2 0 0 0 + 5 < 2147483648 ∧
    ([65, 2, 0, 0, 0, 1, 2, 9, 9, 9] : QByteArray).length < 2147483648 ∧
    parsePacket ByteOrder.little [65, 2, 0, 0, 0, 1, 2, 9, 9, 9] =
      some (65, (([65, 2, 0, 0, 0, 1, 2, 9, 9, 9] : QByteArray).drop 5).take
        (quint32OfBytes ByteOrder.little 2 0 0 0)) :=
  ⟨by decide, by decide,
    (parsePacket_prefix_decoding ByteOrder.little 65 2 0 0 0 [1, 2, 9, 9, 9]
      (by decide) (by decide)).2 (by decide)⟩

/-- C27. The built-in codec stand-in is lossless: for every byte sequence `x` whose
encoding is a byte array (fewer than `2^31` bytes), `decodeAudio (encodeAudio x) = x`, and
for a running engine in Opus mode `processIncomingAudio (encodeAudio x)` leaves exactly `x`
in the playback slot and changes nothing else. -/
theorem opus_stand_in_lossless (s : AudioManager) (x : QByteArray)
    (hx : (encodeAudio x).length < 2147483648)
    (hrun : s.isRunning = true) (hopus : s.transmissionMode = TransmissionMode.Opus) :
    decodeAudio (encodeAudio x) = x ∧
    (processIncomingAudio s (encodeAudio x)).outputBuffer = x ∧
    processIncomingAudio s (encodeAudio x) = { s with outputBuffer := x } := by
  have hd := decodeAudio_encodeAudio x hx
  refine ⟨hd, ?_, ?_⟩
  · simp [processIncomingAudio, hrun, hopus, hd]
  · simp [processIncomingAudio, hrun, hopus, hd]

/-- C27, witness: a running engine in Opus mode receives the encoding of `01 02 03`. -/
theorem opus_stand_in_lossless_witness :
    (encodeAudio [1, 2, 3]).length < 2147483648 ∧
    ({ runningRawEngine with transmissionMode := TransmissionMode.Opus } : AudioManager).isRunning
      = true ∧
    ({ runningRawEngine with transmissionMode := TransmissionMode.Opus } : AudioManager).transmissionMode
      = TransmissionMode.Opus ∧
    (processIncomingAudio { runningRawEngine with transmissionMode := TransmissionMode.Opus }
      (encodeAudio [1, 2, 3])).outputBuffer = [1, 2, 3] :=
  ⟨by decide, by decide, by decide,
    (opus_stand_in_lossless { runningRawEngine with transmissionMode := TransmissionMode.Opus }
      [1, 2, 3] (by decide) (by decide) (by decide)).2.1⟩

end AudioBridge
